import Mathlib

/-!
Verification of the demoengine core: a shallow embedding of the DSL
compiler (`src/bytecode.rs`, over the AST of `src/ast.rs` and the enums of
`src/types.rs`) and of the bytecode interpreter (`src/runtime.rs`).

Modelling conventions, used throughout:
* `f32` values are modelled as `Rat`.  The properties verified here concern
  control flow, dynamic type tags and exact comparisons of small constants,
  none of which depend on binary floating-point rounding.
* The Rust code never inspects the source text except through
  `SourceSlice::to_slice`/`to_owned`; accordingly the pair
  (source string, byte slicing) is abstracted into a resolution function
  `src : SourceSlice → String` passed where Rust passes `source: &str`.
* Rust `Result<T, E>` is `Except E T`.  Rust panics (`unwrap()` on `None`,
  out-of-bounds `Vec` indexing) are modelled as the distinguished
  `CompileError.panicUnwrap` / `CompileError.panicIndex` (compile time) and
  `RErr.panicUnwrap` / `RErr.panicIndex` (run time) outcomes.
* `HashMap`/`HashSet` are modelled as association lists with first-match
  lookup (insertion conses to the front, so a later insert shadows an
  earlier one, as a `HashMap` insert overwrites) resp. lists with
  insert-if-absent.
* The GPU backend (`RenderContext`, out of scope per the spec, specified
  only at its interface) is modelled as a trace of `Effect`s plus a success
  oracle `be : Effect → Bool` deciding the `Result` of the fallible backend
  calls; infallible backend calls always append to the trace.
* The interpreter's mutual recursion goes through user function calls and
  is not structurally bounded, so it takes a fuel parameter decremented at
  every recursive step; exhaustion is the distinguished `RErr.outOfFuel`
  (modelling non-termination, which the Rust code does not detect either).
-/

deriving instance DecidableEq for Except

namespace Demo

/-- Rust's `str::split(sep)` (an iterator, always collected to a `Vec`
here): split at every occurrence of the separator character, keeping empty
pieces, so that `"a.b" → ["a","b"]`, `"screen" → ["screen"]`,
`"" → [""]`, `"a..b" → ["a","","b"]`. -/
def split_char_go (sep : Char) : List Char → List Char → List String
  | [], acc => [String.mk acc.reverse]
  | c :: cs, acc =>
      if c = sep then String.mk acc.reverse :: split_char_go sep cs []
      else split_char_go sep cs (c :: acc)

/-- Rust's `str::split(sep).collect::<Vec<&str>>()`; see `split_char_go`. -/
def split_char (sep : Char) (s : String) : List String :=
  split_char_go sep s.data []

/-- Rust's `Iterator::position(p)` on a `Vec`: the index of the first
element satisfying `p`, if any. -/
def vec_position {α : Type} (p : α → Bool) : List α → Option Nat
  | [] => none
  | x :: xs => if p x then some 0 else (vec_position p xs).map (· + 1)

/-- `ast::SourceSlice` — a half-open byte range `[begin, end)` into the
original source text (`ast.rs`).  `begin`/`end` are `beginPos`/`endPos`
because `end` is a Lean keyword. -/
structure SourceSlice where
  beginPos : Nat
  endPos : Nat
deriving DecidableEq

/-- `types::BinaryOperator` (`types.rs`). -/
inductive BinaryOperator where
  | Add | Sub | Mul | Div
  | Lt | Le | Gt | Ge | Eq | Ne
deriving DecidableEq

/-- `types::RenderTargetFormat` (`types.rs`). -/
inductive RenderTargetFormat where
  | Srgb8 | Srgba8
  | R8 | Rgb8 | Rgba8
  | R16 | R16F | Rgb16 | Rgb16F | Rgba16 | Rgba16F
  | R32F | Rgb32F | Rgba32F
deriving DecidableEq

/-- `types::BlendMode` (`types.rs`). -/
inductive BlendMode where
  | None | Add | AlphaBlend | OitCoverageBlend
deriving DecidableEq

/-- `BlendMode::from_str` (`types.rs`). -/
def BlendMode.from_str (str_value : String) : Option BlendMode :=
  if str_value = "none" then some BlendMode.None
  else if str_value = "add" then some BlendMode.Add
  else if str_value = "alpha_blend" then some BlendMode.AlphaBlend
  else if str_value = "oit_coverage_blend" then some BlendMode.OitCoverageBlend
  else none

/-- `types::ZTestMode` (`types.rs`). -/
inductive ZTestMode where
  | LessEqual | Equal | Always
deriving DecidableEq

/-- `ZTestMode::from_str` (`types.rs`). -/
def ZTestMode.from_str (str_value : String) : Option ZTestMode :=
  if str_value = "less_equal" then some ZTestMode.LessEqual
  else if str_value = "equal" then some ZTestMode.Equal
  else if str_value = "always" then some ZTestMode.Always
  else none

/-- `types::CullingMode` (`types.rs`). -/
inductive CullingMode where
  | Front | Back | None
deriving DecidableEq

/-- `CullingMode::from_str` (`types.rs`). -/
def CullingMode.from_str (str_value : String) : Option CullingMode :=
  if str_value = "front" then some CullingMode.Front
  else if str_value = "back" then some CullingMode.Back
  else if str_value = "none" then some CullingMode.None
  else none

/-- `color::LinearRGBA` (`color.rs`), components as `Rat` (see header). -/
structure LinearRGBA where
  r : Rat
  g : Rat
  b : Rat
  a : Rat
deriving DecidableEq

/-- `LinearRGBA::from_f32` (`color.rs`). -/
def LinearRGBA.from_f32 (r g b a : Rat) : LinearRGBA := ⟨r, g, b, a⟩

namespace ast

/-- `ast::ValueExpr` (`ast.rs`).  The Rust `FunctionCall` variant holds a
`FunctionCallExpr { source_slice, function, args }` and the `Dictionary`
variant a `DictionaryExpr { source_slice, entries }` with
`KeyValuePairExpr { key, value }` entries; their fields are inlined here
because Lean nested inductives cannot go through yet-undefined structures. -/
inductive ValueExpr where
  | Var (s : SourceSlice)
  | FloatLiteral (s : SourceSlice) (v : Rat)
  | ColorLiteral (s : SourceSlice) (c : LinearRGBA)
  | StringLiteral (s : SourceSlice)
  | PropertyOf (s : SourceSlice) (base : ValueExpr) (props : List SourceSlice)
  | Dictionary (s : SourceSlice) (entries : List (SourceSlice × ValueExpr))
  | FunctionCall (s : SourceSlice) (function : SourceSlice) (args : List ValueExpr)
  | BinaryOp (s : SourceSlice) (op : BinaryOperator) (l : ValueExpr) (r : ValueExpr)

/-- `ast::FunctionCallExpr` (`ast.rs`), as used by `Stmt::FunctionCall` and
by every `emit_*` compiler function. -/
structure FunctionCallExpr where
  source_slice : SourceSlice
  function : SourceSlice
  args : List ValueExpr

/-- `ast::Stmt` (`ast.rs`). -/
inductive Stmt where
  | FunctionCall (fc : FunctionCallExpr)
  | Return (expr : ValueExpr)
  | Conditional (condition : ValueExpr) (a : List Stmt) (b : Option (List Stmt))

/-- `ast::Type` (`ast.rs`); named `Ty` because `Type` is a Lean keyword. -/
inductive Ty where
  | Float32 | LinColor | Str | Void
deriving DecidableEq

/-- `ast::Parameter` (`ast.rs`). -/
structure Parameter where
  name : SourceSlice
  value_type : Ty

/-- `ast::Function` (`ast.rs`). -/
structure Function where
  name : SourceSlice
  params : List Parameter
  block : List Stmt
  return_type : Option Ty

/-- `ast::RenderTargetDef` (`ast.rs`). -/
structure RenderTargetDef where
  source_slice : SourceSlice
  name : SourceSlice
  width : ValueExpr
  height : ValueExpr
  formats : List (SourceSlice × RenderTargetFormat)
  has_depth : Bool

/-- `ast::Program` (`ast.rs`). -/
structure Program where
  render_targets : List RenderTargetDef
  functions : List Function

/-- `impl AstNode for ast::ValueExpr` — `source_slice()` (`ast.rs`). -/
def ValueExpr.source_slice : ValueExpr → SourceSlice
  | .Var s => s
  | .FloatLiteral s _ => s
  | .ColorLiteral s _ => s
  | .StringLiteral s => s
  | .PropertyOf s _ _ => s
  | .Dictionary s _ => s
  | .FunctionCall s _ _ => s
  | .BinaryOp s _ _ _ => s

/-- `ast::ValueExpr::as_string` (`ast.rs`): the string a `StringLiteral`
slice resolves to, and `Err(())` on every other variant. -/
def ValueExpr.as_string (e : ValueExpr) (src : SourceSlice → String) : Except Unit String :=
  match e with
  | .StringLiteral string => .ok (src string)
  | _ => .error ()

end ast

namespace bytecode

/-- The message part of a `bytecode::SemanticError`.  Each constructor
corresponds to one `format!` site in `bytecode.rs`, carrying the data that
the Rust message interpolates. -/
inductive ErrorMsg where
  /-- `expect_ast_string`: "Expected string literal". -/
  | expectedStringLiteral
  /-- `ValueExpr::from_ast`: "The `.` operator can only be used with variable names". -/
  | dotOnlyWithVariableNames
  /-- `ProgramDef::from_ast`: "Expected dict". -/
  | expectedDict
  /-- `ProgramDef::from_ast`: "WARNING: Unknown shader type: {}". -/
  | unknownShaderType (shader_type : String)
  /-- `ProgramDef::from_ast`: "vert and frag shaders are mandatory!". -/
  | vertFragMandatory
  /-- `expect_args_count`: "Expected {} arguments, but got {}.". -/
  | wrongArgsCount (expected got : Nat)
  /-- `emit_target_bind`: "Trying to bind unknown render target {:?}". -/
  | unknownRenderTarget (name : String)
  /-- `emit_pipeline_set_blending` and
  `emit_uniform_render_target_as_texture` (identical message text):
  "The name `{:?}` is not valid: use target.buffer". -/
  | invalidTargetBufferName (name : String)
  /-- `emit_pipeline_set_blending`: "Trying to set blending for unknown render target {:?}". -/
  | blendingUnknownRenderTarget (name : String)
  /-- `emit_pipeline_set_blending`: "Trying to set blending for unknown buffer {:?}". -/
  | blendingUnknownBuffer (name : String)
  /-- `emit_pipeline_set_blending`: "Not a valid blend mode: {}". -/
  | invalidBlendMode (mode : String)
  /-- `emit_pipeline_set_ztest`: "Not a valid z-test mode: {}". -/
  | invalidZTestMode (mode : String)
  /-- `emit_pipeline_set_culling`: "Not a valid culling mode: {}". -/
  | invalidCullingMode (mode : String)
  /-- `emit_uniform_render_target_as_texture`: "Trying to bind unknown render target {:?} as texture". -/
  | rttUnknownRenderTarget (name : String)
  /-- `emit_uniform_render_target_as_texture`: "Trying to bind unknown buffer {:?} as texture". -/
  | rttUnknownBuffer (name : String)
  /-- `collect_target_defs`: "The render target name `screen` is reserved for the window's buffer". -/
  | reservedScreenName
  /-- `collect_target_defs`: "Multiple definitions of `{}` found". -/
  | multipleDefinitions (name : String)
deriving DecidableEq

/-- `bytecode::SemanticError` (`bytecode.rs`): a source slice plus a
message. -/
structure SemanticError where
  slice : SourceSlice
  error : ErrorMsg
deriving DecidableEq

/-- `SemanticError::error_from_ast` (`bytecode.rs`); callers pass the
node's `source_slice()`. -/
def SemanticError.error_from_ast (slice : SourceSlice) (error : ErrorMsg) : SemanticError :=
  ⟨slice, error⟩

/-- Outcome type for the compiler functions that can panic: either a
`SemanticError` that the Rust function returns as `Err`, or a Rust panic
(`Option::unwrap` on `None`, or `Vec` indexing out of bounds), which the
Rust return type does not capture. -/
inductive CompileError where
  | sem (e : SemanticError)
  | panicUnwrap
  | panicIndex
deriving DecidableEq

/-- `expect_ast_string` (`bytecode.rs`): extract a string literal, or a
semantic error carrying the expression's slice. -/
def expect_ast_string (ast : ast.ValueExpr) (src : SourceSlice → String) :
    Except SemanticError String :=
  (ast.as_string src).mapError
    (fun _ => SemanticError.error_from_ast ast.source_slice .expectedStringLiteral)

/-- `bytecode::ValueExpr` (`bytecode.rs`).  The Rust `FunctionCall` variant
holds a `bytecode::FunctionCall { function, args }` whose fields are
inlined (cf. `ast.ValueExpr`); `ConstDict`'s `HashMap` is an association
list. -/
inductive ValueExpr where
  | FunctionCall (function : String) (args : List ValueExpr)
  | Var (name : String) (props : List String)
  | ConstFloat (v : Rat)
  | ConstLinColor (c : LinearRGBA)
  | ConstString (s : String)
  | ConstDict (entries : List (String × ValueExpr))
  | BinaryOp (op : BinaryOperator) (l : ValueExpr) (r : ValueExpr)

/-- `bytecode::FunctionCall` (`bytecode.rs`), as stored in
`BytecodeOp::FunctionCall` and consumed by `execute_function_call`. -/
structure FunctionCall where
  function : String
  args : List ValueExpr

mutual
/-- `bytecode::ValueExpr::from_ast` (`bytecode.rs`). -/
def ValueExpr.from_ast (src : SourceSlice → String) :
    ast.ValueExpr → Except SemanticError ValueExpr
  | .FloatLiteral _ v => .ok (.ConstFloat v)
  | .ColorLiteral _ c => .ok (.ConstLinColor c)
  | .StringLiteral s => .ok (.ConstString (src s))
  | .Var var => .ok (.Var (src var) [])
  | .PropertyOf s v props => do
      let v ← ValueExpr.from_ast src v
      match v with
      | .Var v p => .ok (.Var v (p ++ props.map src))
      | _ => .error (SemanticError.error_from_ast s .dotOnlyWithVariableNames)
  | .Dictionary _ entries => do
      let entries ← ValueExpr.from_ast_entries src entries
      .ok (.ConstDict entries)
  | .FunctionCall _ function args => do
      let args ← ValueExpr.from_ast_list src args
      .ok (.FunctionCall (src function) args)
  | .BinaryOp _ op l r => do
      let l ← ValueExpr.from_ast src l
      let r ← ValueExpr.from_ast src r
      .ok (.BinaryOp op l r)

/-- The argument list of `ValueExpr::from_ast`'s `FunctionCall` arm
(`args.iter().map(...).collect::<Result<..>>()`). -/
def ValueExpr.from_ast_list (src : SourceSlice → String) :
    List ast.ValueExpr → Except SemanticError (List ValueExpr)
  | [] => .ok []
  | e :: es => do
      let e ← ValueExpr.from_ast src e
      let es ← ValueExpr.from_ast_list src es
      .ok (e :: es)

/-- The entry list of `ValueExpr::from_ast`'s `Dictionary` arm
(`d.entries.iter().map(...).collect::<Result<HashMap<..>>>()`). -/
def ValueExpr.from_ast_entries (src : SourceSlice → String) :
    List (SourceSlice × ast.ValueExpr) → Except SemanticError (List (String × ValueExpr))
  | [] => .ok []
  | kv :: kvs => do
      let v ← ValueExpr.from_ast src kv.2
      let kvs ← ValueExpr.from_ast_entries src kvs
      .ok ((src kv.1, v) :: kvs)
end

/-- `bytecode::TextureDef` (`bytecode.rs`); `PartialEq` is derived
structural equality. -/
structure TextureDef where
  path : String
  srgb : Bool
deriving DecidableEq

/-- `bytecode::IblDef` (`bytecode.rs`). -/
structure IblDef where
  folder : String
deriving DecidableEq

/-- `bytecode::RenderTargetDef` (`bytecode.rs`). -/
structure RenderTargetDef where
  name : String
  width : ValueExpr
  height : ValueExpr
  formats : List (String × RenderTargetFormat)
  has_depth : Bool

/-- `bytecode::RenderTargetDef::from_ast` (`bytecode.rs`). -/
def RenderTargetDef.from_ast (src : SourceSlice → String) (op : ast.RenderTargetDef) :
    Except SemanticError RenderTargetDef := do
  let width ← ValueExpr.from_ast src op.width
  let height ← ValueExpr.from_ast src op.height
  .ok { name := src op.name
        width := width
        height := height
        formats := op.formats.map (fun f => (src f.1, f.2))
        has_depth := op.has_depth }

/-- `bytecode::ProgramDef` (`bytecode.rs`); identity is structural
equality over all six optional stage paths. -/
structure ProgramDef where
  vert : Option String
  tess_ctrl : Option String
  tess_eval : Option String
  geom : Option String
  frag : Option String
  comp : Option String
deriving DecidableEq

/-- The entry loop of `ProgramDef::from_ast` (`bytecode.rs`): fold the
dictionary entries over the partially built `ProgramDef`, keys `"vert"`
and `"frag"` setting the respective stage and any other key being the
(hard) "WARNING: Unknown shader type" error carrying the key's slice. -/
def ProgramDef.apply_entries (src : SourceSlice → String) :
    ProgramDef → List (SourceSlice × ast.ValueExpr) → Except SemanticError ProgramDef
  | program, [] => .ok program
  | program, kv :: kvs => do
      let shader_type := src kv.1
      let shader_source ← expect_ast_string kv.2 src
      let program ←
        if shader_type = "vert" then .ok { program with vert := some shader_source }
        else if shader_type = "frag" then .ok { program with frag := some shader_source }
        else .error (SemanticError.error_from_ast kv.1 (.unknownShaderType shader_type))
      ProgramDef.apply_entries src program kvs

/-- `bytecode::ProgramDef::from_ast` (`bytecode.rs`): expects a dictionary
expression, folds its entries, then requires both `vert` and `frag`. -/
def ProgramDef.from_ast (src : SourceSlice → String) (op : ast.ValueExpr) :
    Except SemanticError ProgramDef := do
  match op with
  | .Dictionary _ entries => do
      let program ← ProgramDef.apply_entries src
        ⟨none, none, none, none, none, none⟩ entries
      if program.vert = none ∨ program.frag = none then
        .error (SemanticError.error_from_ast op.source_slice .vertFragMandatory)
      else
        .ok program
  | _ => .error (SemanticError.error_from_ast op.source_slice .expectedDict)

/-- `bytecode::ProgramHeader` (`bytecode.rs`); the `HashSet`s are lists
built by insert-if-absent. -/
structure ProgramHeader where
  sync_tracks : List String
  target_defs : List RenderTargetDef
  program_defs : List ProgramDef
  model_defs : List String
  texture_defs : List TextureDef
  ibl_defs : List IblDef
  external_res : List String

/-- `ProgramHeader::new` (`bytecode.rs`). -/
def ProgramHeader.new : ProgramHeader :=
  ⟨[], [], [], [], [], [], []⟩

/-- `bytecode::BytecodeOp` (`bytecode.rs`).  Rust `u32` handles are `Nat`
(they are produced by `idx as u32` from `Vec` positions, which always fit);
`Conditional`'s nested `BlockBytecode`s are inlined as op lists. -/
inductive BytecodeOp where
  | BindRt (idx : Nat)
  | BindScreenRt
  | BindProgram (idx : Nat)
  | Viewport (x y w h : ValueExpr)
  | Clear (linear : ValueExpr)
  | PipelineSetBlending (buffer : Nat) (mode : BlendMode)
  | PipelineSetWriteMask (write_color write_depth : ValueExpr)
  | PipelineSetZTest (mode : ZTestMode)
  | PipelineSetCulling (mode : CullingMode)
  | UniformFloat (name : String) (value : ValueExpr)
  | UniformColor (name : String) (value : ValueExpr)
  | UniformTexture (name : String) (idx : Nat)
  | UniformIbl (idx : Nat)
  | UniformRt (name : String) (target buffer : Nat)
  | DrawQuad
  | DrawModel (idx : Nat)
  | FunctionCall (fc : FunctionCall)
  | Return (expr : ValueExpr)
  | Conditional (condition : ValueExpr) (a : List BytecodeOp) (b : Option (List BytecodeOp))

/-- `bytecode::BlockBytecode` (`bytecode.rs`). -/
structure BlockBytecode where
  bytecode : List BytecodeOp

/-- `BlockBytecode::get_bytecode` (`bytecode.rs`). -/
def BlockBytecode.get_bytecode (b : BlockBytecode) : List BytecodeOp :=
  b.bytecode

/-- `BlockBytecode::expect_args_count` (`bytecode.rs`): semantic error
(carrying the whole call's slice) unless the call has exactly
`args_count` arguments. -/
def expect_args_count (function_call : ast.FunctionCallExpr) (args_count : Nat) :
    Except SemanticError Unit :=
  if function_call.args.length = args_count then .ok ()
  else .error (SemanticError.error_from_ast function_call.source_slice
    (.wrongArgsCount args_count function_call.args.length))

/-- Rust `Vec` indexing `args[i]`: out of bounds is a panic, not an error. -/
def arg_index (args : List ast.ValueExpr) (i : Nat) : Except CompileError ast.ValueExpr :=
  match args.get? i with
  | some a => .ok a
  | none => .error .panicIndex

/- Every `emit_*` method pushes exactly one op onto `self.bytecode`; each
is modelled as returning that op (appended by the block compiler). -/

/-- `BlockBytecode::emit_target_bind` (`bytecode.rs`). -/
def emit_target_bind (src : SourceSlice → String) (function_call : ast.FunctionCallExpr)
    (target_defs : List RenderTargetDef) : Except CompileError BytecodeOp := do
  (expect_args_count function_call 1).mapError .sem
  let a0 ← arg_index function_call.args 0
  let name ← (expect_ast_string a0 src).mapError .sem
  if name = "screen" then
    .ok .BindScreenRt
  else
    match vec_position (fun t => t.name = name) target_defs with
    | some idx => .ok (.BindRt idx)
    | none => .error (.sem (SemanticError.error_from_ast a0.source_slice
        (.unknownRenderTarget name)))

/-- `BlockBytecode::emit_pipeline_set_blending` (`bytecode.rs`).  Note the
order: the target string (`args[1]`) is resolved before the mode string
(`args[0]`), and the literal string `"screen"` bypasses the
`target.buffer` split with buffer index `0`. -/
def emit_pipeline_set_blending (src : SourceSlice → String)
    (function_call : ast.FunctionCallExpr) (target_defs : List RenderTargetDef) :
    Except CompileError BytecodeOp := do
  (expect_args_count function_call 2).mapError .sem
  let a1 ← arg_index function_call.args 1
  let render_target ← (expect_ast_string a1 src).mapError .sem
  let buffer_idx ←
    if render_target = "screen" then
      .ok 0
    else do
      let parts := split_char '.' render_target
      if parts.length ≠ 2 then
        .error (.sem (SemanticError.error_from_ast a1.source_slice
          (.invalidTargetBufferName render_target)))
      else do
        let idx ←
          match vec_position (fun t => t.name = parts.getD 0 "") target_defs with
          | some idx => .ok idx
          | none => .error (.sem (SemanticError.error_from_ast a1.source_slice
              (.blendingUnknownRenderTarget render_target)))
        let t ←
          match target_defs.get? idx with
          | some t => .ok t
          | none => .error CompileError.panicIndex
        match vec_position (fun f => f.1 = parts.getD 1 "") t.formats with
        | some buffer_idx => .ok buffer_idx
        | none => .error (.sem (SemanticError.error_from_ast a1.source_slice
            (.blendingUnknownBuffer render_target)))
  let a0 ← arg_index function_call.args 0
  let mode ← (expect_ast_string a0 src).mapError .sem
  match BlendMode.from_str mode with
  | some mode => .ok (.PipelineSetBlending buffer_idx mode)
  | none => .error (.sem (SemanticError.error_from_ast a0.source_slice
      (.invalidBlendMode mode)))

/-- `BlockBytecode::emit_pipeline_set_write_mask` (`bytecode.rs`). -/
def emit_pipeline_set_write_mask (src : SourceSlice → String)
    (function_call : ast.FunctionCallExpr) : Except CompileError BytecodeOp := do
  (expect_args_count function_call 2).mapError .sem
  let a0 ← arg_index function_call.args 0
  let a1 ← arg_index function_call.args 1
  let write_color ← (ValueExpr.from_ast src a0).mapError .sem
  let write_depth ← (ValueExpr.from_ast src a1).mapError .sem
  .ok (.PipelineSetWriteMask write_color write_depth)

/-- `BlockBytecode::emit_pipeline_set_ztest` (`bytecode.rs`). -/
def emit_pipeline_set_ztest (src : SourceSlice → String)
    (function_call : ast.FunctionCallExpr) : Except CompileError BytecodeOp := do
  (expect_args_count function_call 1).mapError .sem
  let a0 ← arg_index function_call.args 0
  let mode ← (expect_ast_string a0 src).mapError .sem
  match ZTestMode.from_str mode with
  | some mode => .ok (.PipelineSetZTest mode)
  | none => .error (.sem (SemanticError.error_from_ast a0.source_slice
      (.invalidZTestMode mode)))

/-- `BlockBytecode::emit_pipeline_set_culling` (`bytecode.rs`). -/
def emit_pipeline_set_culling (src : SourceSlice → String)
    (function_call : ast.FunctionCallExpr) : Except CompileError BytecodeOp := do
  (expect_args_count function_call 1).mapError .sem
  let a0 ← arg_index function_call.args 0
  let mode ← (expect_ast_string a0 src).mapError .sem
  match CullingMode.from_str mode with
  | some mode => .ok (.PipelineSetCulling mode)
  | none => .error (.sem (SemanticError.error_from_ast a0.source_slice
      (.invalidCullingMode mode)))

/-- `BlockBytecode::emit_program_bind` (`bytecode.rs`).  The header lookup
is `position(..).unwrap()`: if the structurally equal `ProgramDef` is not
in the header, the compiler panics. -/
def emit_program_bind (src : SourceSlice → String) (function_call : ast.FunctionCallExpr)
    (program_defs : List ProgramDef) : Except CompileError BytecodeOp := do
  (expect_args_count function_call 1).mapError .sem
  let a0 ← arg_index function_call.args 0
  let prog ← (ProgramDef.from_ast src a0).mapError .sem
  match vec_position (fun d => d = prog) program_defs with
  | some idx => .ok (.BindProgram idx)
  | none => .error .panicUnwrap

/-- `BlockBytecode::emit_draw_model` (`bytecode.rs`); `unwrap` as in
`emit_program_bind`. -/
def emit_draw_model (src : SourceSlice → String) (function_call : ast.FunctionCallExpr)
    (model_defs : List String) : Except CompileError BytecodeOp := do
  (expect_args_count function_call 1).mapError .sem
  let a0 ← arg_index function_call.args 0
  let model_file ← (expect_ast_string a0 src).mapError .sem
  match vec_position (fun d => d = model_file) model_defs with
  | some idx => .ok (.DrawModel idx)
  | none => .error .panicUnwrap

/-- `BlockBytecode::emit_uniform_texture` (`bytecode.rs`); `unwrap` as in
`emit_program_bind`. -/
def emit_uniform_texture (src : SourceSlice → String) (function_call : ast.FunctionCallExpr)
    (texture_defs : List TextureDef) (srgb : Bool) : Except CompileError BytecodeOp := do
  (expect_args_count function_call 2).mapError .sem
  let a1 ← arg_index function_call.args 1
  let texture_file ← (expect_ast_string a1 src).mapError .sem
  let texture_def : TextureDef := ⟨texture_file, srgb⟩
  match vec_position (fun d => d = texture_def) texture_defs with
  | some idx => do
      let a0 ← arg_index function_call.args 0
      let name ← (expect_ast_string a0 src).mapError .sem
      .ok (.UniformTexture name idx)
  | none => .error .panicUnwrap

/-- `BlockBytecode::emit_uniform_ibl` (`bytecode.rs`); `unwrap` as in
`emit_program_bind`. -/
def emit_uniform_ibl (src : SourceSlice → String) (function_call : ast.FunctionCallExpr)
    (ibl_defs : List IblDef) : Except CompileError BytecodeOp := do
  (expect_args_count function_call 1).mapError .sem
  let a0 ← arg_index function_call.args 0
  let folder ← (expect_ast_string a0 src).mapError .sem
  let ibl_def : IblDef := ⟨folder⟩
  match vec_position (fun d => d = ibl_def) ibl_defs with
  | some idx => .ok (.UniformIbl idx)
  | none => .error .panicUnwrap

/-- `BlockBytecode::emit_uniform_render_target_as_texture` (`bytecode.rs`).
Unlike every other emitter this one never calls `expect_args_count`: it
indexes `args[0]` and `args[1]` directly, so a call with fewer than two
arguments panics. -/
def emit_uniform_render_target_as_texture (src : SourceSlice → String)
    (function_call : ast.FunctionCallExpr) (target_defs : List RenderTargetDef) :
    Except CompileError BytecodeOp := do
  let a0 ← arg_index function_call.args 0
  let uniform_name ← (expect_ast_string a0 src).mapError .sem
  let a1 ← arg_index function_call.args 1
  let render_target ← (expect_ast_string a1 src).mapError .sem
  let parts := split_char '.' render_target
  if parts.length ≠ 2 then
    .error (.sem (SemanticError.error_from_ast a1.source_slice
      (.invalidTargetBufferName render_target)))
  else do
    let idx ←
      match vec_position (fun t => t.name = parts.getD 0 "") target_defs with
      | some idx => .ok idx
      | none => .error (.sem (SemanticError.error_from_ast a1.source_slice
          (.rttUnknownRenderTarget render_target)))
    let t ←
      match target_defs.get? idx with
      | some t => .ok t
      | none => .error CompileError.panicIndex
    match vec_position (fun f => f.1 = parts.getD 1 "") t.formats with
    | some buffer_idx => .ok (.UniformRt uniform_name idx buffer_idx)
    | none => .error (.sem (SemanticError.error_from_ast a1.source_slice
        (.rttUnknownBuffer render_target)))

/-- `BlockBytecode::emit_function_call` (`bytecode.rs`): the generic
fall-through for any non-builtin name. -/
def emit_function_call (src : SourceSlice → String) (function : SourceSlice)
    (args : List ast.ValueExpr) : Except CompileError BytecodeOp := do
  let args ← (ValueExpr.from_ast_list src args).mapError .sem
  .ok (.FunctionCall ⟨src function, args⟩)

/-- The ordered builtin-name dispatch chain of `BlockBytecode::from_ast`
(`bytecode.rs`) for a function-call statement: the `else if` cascade on
the call's resolved name, falling through to the generic
`emit_function_call`.  (Factored out of the statement loop; it contains
no recursion.) -/
def compile_call_stmt (src : SourceSlice → String) (header : ProgramHeader)
    (function_call : ast.FunctionCallExpr) : Except CompileError BytecodeOp :=
      if src function_call.function = "program" then
        emit_program_bind src function_call header.program_defs
      else if src function_call.function = "bind_rt" then
        emit_target_bind src function_call header.target_defs
      else if src function_call.function = "pipeline_set_blending" then
        emit_pipeline_set_blending src function_call header.target_defs
      else if src function_call.function = "pipeline_set_write_mask" then
        emit_pipeline_set_write_mask src function_call
      else if src function_call.function = "pipeline_set_ztest" then
        emit_pipeline_set_ztest src function_call
      else if src function_call.function = "pipeline_set_culling" then
        emit_pipeline_set_culling src function_call
      else if src function_call.function = "uniform_float" then do
        (expect_args_count function_call 2).mapError .sem
        let a0 ← arg_index function_call.args 0
        let a1 ← arg_index function_call.args 1
        let name ← (expect_ast_string a0 src).mapError .sem
        let value ← (ValueExpr.from_ast src a1).mapError .sem
        .ok (.UniformFloat name value)
      else if src function_call.function = "uniform_color" then do
        (expect_args_count function_call 2).mapError .sem
        let a0 ← arg_index function_call.args 0
        let a1 ← arg_index function_call.args 1
        let name ← (expect_ast_string a0 src).mapError .sem
        let value ← (ValueExpr.from_ast src a1).mapError .sem
        .ok (.UniformColor name value)
      else if src function_call.function = "uniform_texture_srgb" then
        emit_uniform_texture src function_call header.texture_defs true
      else if src function_call.function = "uniform_texture_linear" then
        emit_uniform_texture src function_call header.texture_defs false
      else if src function_call.function = "uniform_ibl" then
        emit_uniform_ibl src function_call header.ibl_defs
      else if src function_call.function = "uniform_rtt" then
        emit_uniform_render_target_as_texture src function_call header.target_defs
      else if src function_call.function = "draw_fullscreenquad" then
        .ok .DrawQuad
      else if src function_call.function = "draw_model" then
        emit_draw_model src function_call header.model_defs
      else if src function_call.function = "clear" then do
        (expect_args_count function_call 1).mapError .sem
        let a0 ← arg_index function_call.args 0
        let linear ← (ValueExpr.from_ast src a0).mapError .sem
        .ok (.Clear linear)
      else if src function_call.function = "viewport" then do
        (expect_args_count function_call 4).mapError .sem
        let a0 ← arg_index function_call.args 0
        let a1 ← arg_index function_call.args 1
        let a2 ← arg_index function_call.args 2
        let a3 ← arg_index function_call.args 3
        let x ← (ValueExpr.from_ast src a0).mapError .sem
        let y ← (ValueExpr.from_ast src a1).mapError .sem
        let w ← (ValueExpr.from_ast src a2).mapError .sem
        let h ← (ValueExpr.from_ast src a3).mapError .sem
        .ok (.Viewport x y w h)
      else
        emit_function_call src function_call.function function_call.args

mutual
/-- One iteration of the statement loop of `BlockBytecode::from_ast`
(`bytecode.rs`): the builtin dispatch chain (`compile_call_stmt`) for a
function-call statement, plus the `Return` and `Conditional` arms.  Every
arm pushes exactly one op. -/
def stmt_from_ast (src : SourceSlice → String) (header : ProgramHeader) :
    ast.Stmt → Except CompileError BytecodeOp
  | .FunctionCall function_call => compile_call_stmt src header function_call
  | .Return expr => do
      let expr ← (ValueExpr.from_ast src expr).mapError .sem
      .ok (.Return expr)
  | .Conditional condition a b => do
      let condition ← (ValueExpr.from_ast src condition).mapError .sem
      let a ← block_from_ast src header a
      let b ←
        match b with
        | some b => do
            let b ← block_from_ast src header b
            .ok (some b)
        | none => .ok none
      .ok (.Conditional condition a b)

/-- The statement loop of `BlockBytecode::from_ast` (`bytecode.rs`): each
statement's single op appended in order, first error aborting. -/
def block_from_ast (src : SourceSlice → String) (header : ProgramHeader) :
    List ast.Stmt → Except CompileError (List BytecodeOp)
  | [] => .ok []
  | op :: rest => do
      let o ← stmt_from_ast src header op
      let os ← block_from_ast src header rest
      .ok (o :: os)
end

/-- `BlockBytecode::from_ast` (`bytecode.rs`). -/
def BlockBytecode.from_ast (src : SourceSlice → String) (block : List ast.Stmt)
    (header : ProgramHeader) : Except CompileError BlockBytecode := do
  let bytecode ← block_from_ast src header block
  .ok ⟨bytecode⟩

/-- `HashSet::insert` on the list model: append if absent. -/
def hashset_insert (s : List String) (x : String) : List String :=
  if x ∈ s then s else s ++ [x]

mutual
/-- `impl Visitor for ast::ValueExpr` — `visit_sync_tracks`
(`astvisitor.rs`), with the visited track names returned in visitation
order instead of passed to a callback. -/
def visit_sync_tracks_expr (src : SourceSlice → String) : ast.ValueExpr → List String
  | .PropertyOf _ p a =>
      match p with
      | .Var p => if src p = "sync" then [String.intercalate ":" (a.map src)] else []
      | _ => []
  | .FunctionCall _ _ args => visit_sync_tracks_expr_list src args
  | .BinaryOp _ _ a b => visit_sync_tracks_expr src a ++ visit_sync_tracks_expr src b
  | _ => []

/-- The `for arg in args` loops of `visit_sync_tracks` (`astvisitor.rs`). -/
def visit_sync_tracks_expr_list (src : SourceSlice → String) : List ast.ValueExpr → List String
  | [] => []
  | e :: es => visit_sync_tracks_expr src e ++ visit_sync_tracks_expr_list src es
end

mutual
/-- `impl Visitor for ast::Stmt` — `visit_sync_tracks` (`astvisitor.rs`).
Note this traversal, unlike `walk_render_ops`, does recurse into both
branches of a conditional. -/
def visit_sync_tracks_stmt (src : SourceSlice → String) : ast.Stmt → List String
  | .FunctionCall function_call => visit_sync_tracks_expr_list src function_call.args
  | .Return expr => visit_sync_tracks_expr src expr
  | .Conditional condition a b =>
      visit_sync_tracks_expr src condition ++ visit_sync_tracks_block src a ++
        (match b with
         | some b => visit_sync_tracks_block src b
         | none => [])

/-- `impl Visitor for Vec<ast::Stmt>` — `visit_sync_tracks`
(`astvisitor.rs`). -/
def visit_sync_tracks_block (src : SourceSlice → String) : List ast.Stmt → List String
  | [] => []
  | s :: ss => visit_sync_tracks_stmt src s ++ visit_sync_tracks_block src ss
end

/-- `impl Visitor for ast::Program` — `visit_sync_tracks`
(`astvisitor.rs`): render-target size expressions first, then every
function body. -/
def visit_sync_tracks_program (src : SourceSlice → String) (p : ast.Program) : List String :=
  (p.render_targets.flatMap
    (fun target_def => visit_sync_tracks_expr src target_def.width ++
      visit_sync_tracks_expr src target_def.height)) ++
  (p.functions.flatMap (fun function => visit_sync_tracks_block src function.block))

/-- `ProgramContainer::collect_sync_tracks` (`bytecode.rs`): the visited
names inserted into a `HashSet`. -/
def collect_sync_tracks (src : SourceSlice → String) (p : ast.Program) : List String :=
  (visit_sync_tracks_program src p).foldl hashset_insert []

/-- The body of the `for op in &ast.render_targets` loop of
`ProgramContainer::collect_target_defs` (`bytecode.rs`), with the
already-collected definitions as accumulator. -/
def collect_target_defs_go (src : SourceSlice → String) :
    List RenderTargetDef → List ast.RenderTargetDef → Except SemanticError (List RenderTargetDef)
  | result, [] => .ok result
  | result, op :: ops =>
      if src op.name = "screen" then
        .error (SemanticError.error_from_ast op.source_slice .reservedScreenName)
      else do
        let program_def ← RenderTargetDef.from_ast src op
        if result.any (fun r => r.name = program_def.name) then
          .error (SemanticError.error_from_ast op.source_slice
            (.multipleDefinitions program_def.name))
        else
          collect_target_defs_go src (result ++ [program_def]) ops

/-- `ProgramContainer::collect_target_defs` (`bytecode.rs`). -/
def collect_target_defs (src : SourceSlice → String) (p : ast.Program) :
    Except SemanticError (List RenderTargetDef) :=
  collect_target_defs_go src [] p.render_targets

/-- `ProgramContainer::walk_render_ops` (`bytecode.rs`): apply `f` to every
*top-level* statement of every function body, in order, stopping at the
first error.  The Rust closure's captured mutable state is made explicit as
a fold accumulator.  Note: no recursion into `Stmt::Conditional` branches. -/
def walk_render_ops {σ : Type} (p : ast.Program)
    (f : σ → ast.Stmt → Except SemanticError σ) (init : σ) : Except SemanticError σ :=
  p.functions.foldlM (fun s function => function.block.foldlM f s) init

/-- `ProgramContainer::collect_program_defs` (`bytecode.rs`). -/
def collect_program_defs (src : SourceSlice → String) (p : ast.Program) :
    Except SemanticError (List ProgramDef) :=
  walk_render_ops p
    (fun result render_op =>
      match render_op with
      | .FunctionCall call =>
          if src call.function = "program" ∧ call.args.length = 1 then do
            let program_def ← ProgramDef.from_ast src (call.args.headD (.Var ⟨0, 0⟩))
            if result.any (fun d => d = program_def) then .ok result
            else .ok (result ++ [program_def])
          else .ok result
      | _ => .ok result)
    []

/-- `ProgramContainer::collect_model_defs` (`bytecode.rs`). -/
def collect_model_defs (src : SourceSlice → String) (p : ast.Program) :
    Except SemanticError (List String) :=
  walk_render_ops p
    (fun result render_op =>
      match render_op with
      | .FunctionCall call =>
          if src call.function = "draw_model" ∧ call.args.length = 1 then do
            let model_path ← expect_ast_string (call.args.headD (.Var ⟨0, 0⟩)) src
            if result.any (fun d => d = model_path) then .ok result
            else .ok (result ++ [model_path])
          else .ok result
      | _ => .ok result)
    []

/-- The closure body of `ProgramContainer::collect_texture_defs`
(`bytecode.rs`): record a top-level `uniform_texture_srgb`/
`uniform_texture_linear` call with exactly two arguments, unless a
structurally equal `TextureDef` was already recorded. -/
def collect_texture_defs_step (src : SourceSlice → String) (result : List TextureDef)
    (render_op : ast.Stmt) : Except SemanticError (List TextureDef) :=
  match render_op with
  | .FunctionCall call =>
      if (src call.function = "uniform_texture_srgb" ∨
          src call.function = "uniform_texture_linear") ∧ call.args.length = 2 then do
        let texture_path ← expect_ast_string ((call.args.drop 1).headD (.Var ⟨0, 0⟩)) src
        let texture_srgb := src call.function = "uniform_texture_srgb"
        let texture_def : TextureDef := ⟨texture_path, texture_srgb⟩
        if result.any (fun d => d = texture_def) then .ok result
        else .ok (result ++ [texture_def])
      else .ok result
  | _ => .ok result

/-- `ProgramContainer::collect_texture_defs` (`bytecode.rs`): top-level
`uniform_texture_srgb`/`uniform_texture_linear` calls with exactly two
arguments, deduplicated by structural equality, first-seen order. -/
def collect_texture_defs (src : SourceSlice → String) (p : ast.Program) :
    Except SemanticError (List TextureDef) :=
  walk_render_ops p (collect_texture_defs_step src) []

/-- `ProgramContainer::collect_ibl_defs` (`bytecode.rs`). -/
def collect_ibl_defs (src : SourceSlice → String) (p : ast.Program) :
    Except SemanticError (List IblDef) :=
  walk_render_ops p
    (fun result render_op =>
      match render_op with
      | .FunctionCall call =>
          if src call.function = "uniform_ibl" ∧ call.args.length = 1 then do
            let folder ← expect_ast_string (call.args.headD (.Var ⟨0, 0⟩)) src
            let ibl_def : IblDef := ⟨folder⟩
            if result.any (fun d => d = ibl_def) then .ok result
            else .ok (result ++ [ibl_def])
          else .ok result
      | _ => .ok result)
    []

/-- `ProgramContainer::collect_external_resources` (`bytecode.rs`). -/
def collect_external_resources (progs : List ProgramDef) (models : List String)
    (textures : List TextureDef) : List String :=
  let result := progs.foldl
    (fun result prog =>
      let result := match prog.vert with | some p => hashset_insert result p | none => result
      let result := match prog.tess_ctrl with | some p => hashset_insert result p | none => result
      let result := match prog.tess_eval with | some p => hashset_insert result p | none => result
      let result := match prog.geom with | some p => hashset_insert result p | none => result
      let result := match prog.frag with | some p => hashset_insert result p | none => result
      match prog.comp with | some p => hashset_insert result p | none => result)
    []
  let result := models.foldl hashset_insert result
  textures.foldl (fun result texture => hashset_insert result texture.path) result

/-- `bytecode::Function` (`bytecode.rs`). -/
structure Function where
  name : String
  params : List (String × ast.Ty)
  bytecode : BlockBytecode

/-- `bytecode::Function::from_ast` (`bytecode.rs`). -/
def Function.from_ast (src : SourceSlice → String) (ast : ast.Function)
    (header : ProgramHeader) : Except CompileError Function := do
  let bytecode ← BlockBytecode.from_ast src ast.block header
  let params := ast.params.map (fun p => (src p.name, p.value_type))
  .ok { name := src ast.name, params := params, bytecode := bytecode }

/-- `bytecode::ProgramContainer` (`bytecode.rs`); the function `HashMap` is
an association list where insertion conses to the front (a later insert of
the same name shadows the earlier one) and lookup takes the first match. -/
structure ProgramContainer where
  header : ProgramHeader
  functions : List (String × Function)

/-- `ProgramContainer::from_ast` (`bytecode.rs`): build the header
(sync tracks, render targets, programs, models, textures, IBLs, external
resources, in that order), then compile every function body against it. -/
def ProgramContainer.from_ast (src : SourceSlice → String) (ast : ast.Program) :
    Except CompileError ProgramContainer := do
  let sync_tracks := collect_sync_tracks src ast
  let target_defs ← (collect_target_defs src ast).mapError .sem
  let program_defs ← (collect_program_defs src ast).mapError .sem
  let model_defs ← (collect_model_defs src ast).mapError .sem
  let texture_defs ← (collect_texture_defs src ast).mapError .sem
  let ibl_defs ← (collect_ibl_defs src ast).mapError .sem
  let external_res := collect_external_resources program_defs model_defs texture_defs
  let header : ProgramHeader :=
    ⟨sync_tracks, target_defs, program_defs, model_defs, texture_defs, ibl_defs, external_res⟩
  let functions ← ast.functions.foldlM
    (fun functions function => do
      let name := src function.name
      let function ← Function.from_ast src function header
      .ok ((name, function) :: functions))
    []
  .ok ⟨header, functions⟩

/-- `ProgramContainer::get_function` (`bytecode.rs`). -/
def ProgramContainer.get_function (c : ProgramContainer) (function : String) :
    Option Function :=
  (c.functions.find? (fun f => f.1 = function)).map (·.2)

/-- `ProgramContainer::get_ops` (`bytecode.rs`). -/
def ProgramContainer.get_ops (c : ProgramContainer) (function : String) :
    Option BlockBytecode :=
  (c.get_function function).map (·.bytecode)

/-- `ProgramContainer::get_target_defs` (`bytecode.rs`). -/
def ProgramContainer.get_target_defs (c : ProgramContainer) : List RenderTargetDef :=
  c.header.target_defs

/-- `ProgramContainer::get_texture_defs` (`bytecode.rs`). -/
def ProgramContainer.get_texture_defs (c : ProgramContainer) : List TextureDef :=
  c.header.texture_defs

end bytecode

namespace runtime

/-- `runtime::Value` (`runtime.rs`). -/
inductive Value where
  | Void
  | Float32 (v : Rat)
  | LinColor (c : LinearRGBA)
  | Str (s : String)
deriving DecidableEq

/-- `Value::value_type` (`runtime.rs`). -/
def Value.value_type : Value → ast.Ty
  | .Void => .Void
  | .Float32 _ => .Float32
  | .LinColor _ => .LinColor
  | .Str _ => .Str

/-- The backend calls the interpreter issues to `RenderContext`
(`runtime.rs`), one constructor per method, recorded as a trace. -/
inductive Effect where
  | BindRenderTarget (target : Option Nat)
  | UseShaders (shader_id : Nat)
  | ViewportRect (x y width height : Nat)
  | Clear (linear : LinearRGBA)
  | SetBlending (buffer : Nat) (mode : BlendMode)
  | SetWriteMask (write_color write_depth : Bool)
  | SetZTest (mode : ZTestMode)
  | SetCulling (mode : CullingMode)
  | SetUniformF32 (uniform_name : String) (value : Rat)
  | SetUniformColor (uniform_name : String) (value : LinearRGBA)
  | SetUniformTextureSrgb (uniform_name : String) (texture_index : Nat)
  | SetUniformIbl (ibl_index : Nat)
  | SetUniformRenderTargetTexture (uniform_name : String) (target_index buffer_index : Nat)
  | RenderFullscreenQuad
  | RenderModel (model_id : Nat)
deriving DecidableEq

/-- Runtime error outcomes.  Rust uses `Err(String)`; each constructor
corresponds to one `format!` site in `runtime.rs`, carrying the
interpolated data.  `outOfFuel` models non-termination of the Rust
recursion, and `panicUnwrap`/`panicIndex` model Rust panics
(`as_f32().unwrap()` on a non-float conditional condition, `Vec` index
out of bounds in the `LinColor` intercept). -/
inductive RErr where
  | outOfFuel
  | panicUnwrap
  | panicIndex
  /-- `Value::as_f32`: "Cannot convert {:?} to float". -/
  | cannotConvertToFloat (v : Value)
  /-- `Value::as_linear_color`: "Cannot convert {:?} to linear color". -/
  | cannotConvertToLinearColor (v : Value)
  /-- `evaluate_expression`: "Const dict not supported". -/
  | constDictNotSupported
  /-- `get_prop`: "Could not get value for sync track \"{}\"". -/
  | syncTrackNotFound (track : String)
  /-- `get_prop`: "Right now `.` is only supported for sync expressions". -/
  | dotOnlyForSync
  /-- `get_prop`: "Unknown variable {}". -/
  | unknownVariable (name : String)
  /-- `call_function`: "Function {} is not defined". -/
  | functionNotDefined (function : String)
  /-- `execute_function_call`: "Missing function {}". -/
  | missingFunction (function : String)
  /-- `execute_function_call`: "Expected {} arguments for call to \"{}\" function. Got {}.". -/
  | wrongArgumentCount (expected : Nat) (function : String) (got : Nat)
  /-- `execute_function_call`: "Expected argument \"{}\" for call to \"{}\", to have type {:?}". -/
  | argumentTypeMismatch (param function : String) (expected : ast.Ty)
  /-- A fallible backend call whose `Result` the oracle decided as `Err`. -/
  | backendFailure (eff : Effect)
deriving DecidableEq

/-- `Value::as_f32` (`runtime.rs`). -/
def Value.as_f32 : Value → Except RErr Rat
  | .Float32 v => .ok v
  | v => .error (.cannotConvertToFloat v)

/-- `Value::as_linear_color` (`runtime.rs`). -/
def Value.as_linear_color : Value → Except RErr LinearRGBA
  | .LinColor v => .ok v
  | v => .error (.cannotConvertToLinearColor v)

/-- `runtime::FunctionContext` (`runtime.rs`), minus the `program` and
`sync_track` references, which are fixed parameters of the interpreter;
the `HashMap`s are association lists with first-match lookup. -/
structure FunctionContext where
  globals : List (String × Value)
  locals : List (String × Value)

/-- `FunctionContext::get_prop` (`runtime.rs`).  Note the order: the check
for the literal name `sync` comes first, before any locals/globals lookup;
a non-`sync` name with a non-empty property path is an error; otherwise
locals are consulted before globals. -/
def FunctionContext.get_prop (ctx : FunctionContext) (sync_track : String → Option Rat)
    (name : String) (props : List String) : Except RErr Value :=
  if name = "sync" then
    let track := String.intercalate ":" props
    match sync_track track with
    | some v => .ok (.Float32 v)
    | none => .error (.syncTrackNotFound track)
  else
    if props ≠ [] then .error .dotOnlyForSync
    else
      match ((ctx.locals.find? (fun p => p.1 = name)).map (·.2)).orElse
          (fun _ => (ctx.globals.find? (fun p => p.1 = name)).map (·.2)) with
      | some v => .ok v
      | none => .error (.unknownVariable name)

/-- The float arithmetic of `evaluate_expression`'s `BinaryOp` arm
(`runtime.rs`): comparisons yield `1.0`/`0.0`.  (On `Rat`, `Div` by zero
yields `0` where `f32` yields an infinity or NaN; no verified property
touches that case.) -/
def eval_binary_op (op : BinaryOperator) (e1 e2 : Rat) : Rat :=
  match op with
  | .Add => e1 + e2
  | .Sub => e1 - e2
  | .Mul => e1 * e2
  | .Div => e1 / e2
  | .Lt => if e1 < e2 then 1 else 0
  | .Le => if e1 ≤ e2 then 1 else 0
  | .Gt => if e1 > e2 then 1 else 0
  | .Ge => if e1 ≥ e2 then 1 else 0
  | .Eq => if e1 = e2 then 1 else 0
  | .Ne => if e1 ≠ e2 then 1 else 0

/-- Rust's saturating `f32 → u32` cast after `.round()`, used by
`Viewport`.  (Mathlib's `round` rounds half-up where `f32` rounds half
away from zero; no verified property touches a tie.) -/
def ru32 (v : Rat) : Nat := min (round v).toNat (2 ^ 32 - 1)

/-- A fallible backend call (`RenderContext` methods returning `Result`
that `execute_block` propagates with `?`): the oracle `be` decides
success, and a successful call is appended to the trace. -/
def backend_call (be : Effect → Bool) (trace : List Effect) (eff : Effect) :
    Except RErr (List Effect) :=
  if be eff then .ok (trace ++ [eff]) else .error (.backendFailure eff)

/-- An infallible backend call: always appended to the trace. -/
def backend_emit (trace : List Effect) (eff : Effect) : List Effect :=
  trace ++ [eff]

/-- Rust `Vec` indexing `function_call.args[i]` in the `LinColor`
intercept: out of bounds is a panic. -/
def rt_arg_index (args : List bytecode.ValueExpr) (i : Nat) :
    Except RErr bytecode.ValueExpr :=
  match args.get? i with
  | some a => .ok a
  | none => .error .panicIndex

/-- The pending work of one interpreter entry point: the four mutually
recursive functions of `runtime.rs` (`evaluate_expression`,
`execute_function_call` with its argument-binding loop split out as
`bind_args`, `call_function`, `execute_block`), packaged so that the
recursion is structural in a single fuel argument. -/
inductive Req where
  | expr (ctx : FunctionContext) (trace : List Effect) (e : bytecode.ValueExpr)
  | fcall (ctx : FunctionContext) (trace : List Effect) (fc : bytecode.FunctionCall)
  | bind_args (ctx : FunctionContext) (trace : List Effect)
      (params : List (String × ast.Ty)) (args : List bytecode.ValueExpr)
      (locals : List (String × Value)) (function : String)
  | call (ctx : FunctionContext) (trace : List Effect) (function : String)
      (args : List (String × Value))
  | block (ctx : FunctionContext) (trace : List Effect) (ops : List bytecode.BytecodeOp)

/-- The interpreter of `runtime.rs`.  Fixed parameters: the compiled
program `P` (`FunctionContext::program`), the sync provider
(`FunctionContext::sync_track`, as `get_value`) and the backend success
oracle.  Fuel is decremented at every recursive step; every entry point
returns the Rust function's value together with the backend trace (the
`&mut RenderContext` threading made explicit). -/
def interp (P : bytecode.ProgramContainer) (sync_track : String → Option Rat)
    (be : Effect → Bool) : Nat → Req → Except RErr (Value × List Effect)
  | 0, _ => .error .outOfFuel
  | n + 1, .expr ctx trace e =>
      -- `evaluate_expression` (`runtime.rs`)
      match e with
      | .FunctionCall function args => interp P sync_track be n (.fcall ctx trace ⟨function, args⟩)
      | .Var name props => do
          let v ← ctx.get_prop sync_track name props
          .ok (v, trace)
      | .ConstFloat val => .ok (.Float32 val, trace)
      | .ConstLinColor val => .ok (.LinColor val, trace)
      | .ConstString val => .ok (.Str val, trace)
      | .ConstDict _ => .error .constDictNotSupported
      | .BinaryOp operand e1 e2 => do
          let (v1, trace) ← interp P sync_track be n (.expr ctx trace e1)
          let (v2, trace) ← interp P sync_track be n (.expr ctx trace e2)
          let x1 ← v1.as_f32
          let x2 ← v2.as_f32
          .ok (.Float32 (eval_binary_op operand x1 x2), trace)
  | n + 1, .fcall ctx trace function_call =>
      -- `execute_function_call` (`runtime.rs`)
      if function_call.function = "LinColor" then do
        -- the intercept: args[0..3] indexed without any bounds check
        let a0 ← rt_arg_index function_call.args 0
        let (v0, trace) ← interp P sync_track be n (.expr ctx trace a0)
        let r ← v0.as_f32
        let a1 ← rt_arg_index function_call.args 1
        let (v1, trace) ← interp P sync_track be n (.expr ctx trace a1)
        let g ← v1.as_f32
        let a2 ← rt_arg_index function_call.args 2
        let (v2, trace) ← interp P sync_track be n (.expr ctx trace a2)
        let b ← v2.as_f32
        let a3 ← rt_arg_index function_call.args 3
        let (v3, trace) ← interp P sync_track be n (.expr ctx trace a3)
        let a ← v3.as_f32
        .ok (.LinColor (LinearRGBA.from_f32 r g b a), trace)
      else
        match P.get_function function_call.function with
        | none => .error (.missingFunction function_call.function)
        | some function =>
            if function.params.length ≠ function_call.args.length then
              .error (.wrongArgumentCount function.params.length function_call.function
                function_call.args.length)
            else
              interp P sync_track be n
                (.bind_args ctx trace function.params function_call.args []
                  function_call.function)
  | n + 1, .bind_args ctx trace params args locals function =>
      -- the `for (p, a) in function.params.iter().zip(...)` loop of
      -- `execute_function_call` (`runtime.rs`)
      match params, args with
      | p :: ps, a :: rest => do
          let (v, trace) ← interp P sync_track be n (.expr ctx trace a)
          if v.value_type = p.2 then
            interp P sync_track be n (.bind_args ctx trace ps rest ((p.1, v) :: locals) function)
          else
            .error (.argumentTypeMismatch p.1 function p.2)
      | _, _ => interp P sync_track be n (.call ctx trace function locals)
  | n + 1, .call ctx trace function args =>
      -- `call_function` (`runtime.rs`): the fresh frame's locals are
      -- exactly `args`; only the globals are carried over
      match P.get_ops function with
      | none => .error (.functionNotDefined function)
      | some called_fn =>
          interp P sync_track be n (.block ⟨ctx.globals, args⟩ trace called_fn.bytecode)
  | n + 1, .block ctx trace ops =>
      -- `execute_block` (`runtime.rs`)
      match ops with
      | [] => .ok (.Void, trace)
      | op :: rest =>
          match op with
          | .BindRt rt_id => do
              let trace ← backend_call be trace (.BindRenderTarget (some rt_id))
              interp P sync_track be n (.block ctx trace rest)
          | .BindScreenRt => do
              let trace ← backend_call be trace (.BindRenderTarget none)
              interp P sync_track be n (.block ctx trace rest)
          | .BindProgram program_id => do
              let trace ← backend_call be trace (.UseShaders program_id)
              interp P sync_track be n (.block ctx trace rest)
          | .Viewport x y w h => do
              let (vx, trace) ← interp P sync_track be n (.expr ctx trace x)
              let x ← vx.as_f32
              let (vy, trace) ← interp P sync_track be n (.expr ctx trace y)
              let y ← vy.as_f32
              let (vw, trace) ← interp P sync_track be n (.expr ctx trace w)
              let w ← vw.as_f32
              let (vh, trace) ← interp P sync_track be n (.expr ctx trace h)
              let h ← vh.as_f32
              let trace := backend_emit trace (.ViewportRect (ru32 x) (ru32 y) (ru32 w) (ru32 h))
              interp P sync_track be n (.block ctx trace rest)
          | .Clear linear => do
              let (v, trace) ← interp P sync_track be n (.expr ctx trace linear)
              let c ← v.as_linear_color
              interp P sync_track be n (.block ctx (backend_emit trace (.Clear c)) rest)
          | .PipelineSetBlending buffer mode =>
              interp P sync_track be n
                (.block ctx (backend_emit trace (.SetBlending buffer mode)) rest)
          | .PipelineSetWriteMask write_color write_depth => do
              let (v1, trace) ← interp P sync_track be n (.expr ctx trace write_color)
              let c ← v1.as_f32
              let (v2, trace) ← interp P sync_track be n (.expr ctx trace write_depth)
              let d ← v2.as_f32
              interp P sync_track be n
                (.block ctx (backend_emit trace (.SetWriteMask (decide (c > 0)) (decide (d > 0)))) rest)
          | .PipelineSetZTest mode =>
              interp P sync_track be n (.block ctx (backend_emit trace (.SetZTest mode)) rest)
          | .PipelineSetCulling mode =>
              interp P sync_track be n (.block ctx (backend_emit trace (.SetCulling mode)) rest)
          | .UniformFloat uniform_name value => do
              let (v, trace) ← interp P sync_track be n (.expr ctx trace value)
              let x ← v.as_f32
              let trace ← backend_call be trace (.SetUniformF32 uniform_name x)
              interp P sync_track be n (.block ctx trace rest)
          | .UniformColor uniform_name value => do
              let (v, trace) ← interp P sync_track be n (.expr ctx trace value)
              let c ← v.as_linear_color
              let trace ← backend_call be trace (.SetUniformColor uniform_name c)
              interp P sync_track be n (.block ctx trace rest)
          | .UniformTexture uniform_name texture_id => do
              let trace ← backend_call be trace (.SetUniformTextureSrgb uniform_name texture_id)
              interp P sync_track be n (.block ctx trace rest)
          | .UniformIbl ibl_id => do
              let trace ← backend_call be trace (.SetUniformIbl ibl_id)
              interp P sync_track be n (.block ctx trace rest)
          | .UniformRt uniform_name target_id buffer_id => do
              let trace ← backend_call be trace
                (.SetUniformRenderTargetTexture uniform_name target_id buffer_id)
              interp P sync_track be n (.block ctx trace rest)
          | .DrawQuad =>
              interp P sync_track be n
                (.block ctx (backend_emit trace .RenderFullscreenQuad) rest)
          | .DrawModel model_id =>
              interp P sync_track be n
                (.block ctx (backend_emit trace (.RenderModel model_id)) rest)
          | .FunctionCall function_call => do
              let (_, trace) ← interp P sync_track be n (.fcall ctx trace function_call)
              interp P sync_track be n (.block ctx trace rest)
          | .Return expr =>
              -- short-circuits the remaining ops of this block
              interp P sync_track be n (.expr ctx trace expr)
          | .Conditional condition a b => do
              let (v, trace) ← interp P sync_track be n (.expr ctx trace condition)
              match v with
              | .Float32 value =>
                  if value > 0 then do
                    -- `execute_block(.., a)?;` — the branch's value is dropped
                    let (_, trace) ← interp P sync_track be n (.block ctx trace a)
                    interp P sync_track be n (.block ctx trace rest)
                  else
                    match b with
                    | some bb => do
                        let (_, trace) ← interp P sync_track be n (.block ctx trace bb)
                        interp P sync_track be n (.block ctx trace rest)
                    | none => interp P sync_track be n (.block ctx trace rest)
              | _ =>
                  -- `.as_f32().unwrap()` on a non-float condition
                  .error .panicUnwrap

/-- `evaluate_expression` (`runtime.rs`). -/
def evaluate_expression (P : bytecode.ProgramContainer) (sync_track : String → Option Rat)
    (be : Effect → Bool) (fuel : Nat) (ctx : FunctionContext) (trace : List Effect)
    (e : bytecode.ValueExpr) : Except RErr (Value × List Effect) :=
  interp P sync_track be fuel (.expr ctx trace e)

/-- `execute_function_call` (`runtime.rs`). -/
def execute_function_call (P : bytecode.ProgramContainer) (sync_track : String → Option Rat)
    (be : Effect → Bool) (fuel : Nat) (ctx : FunctionContext) (trace : List Effect)
    (function_call : bytecode.FunctionCall) : Except RErr (Value × List Effect) :=
  interp P sync_track be fuel (.fcall ctx trace function_call)

/-- `call_function` (`runtime.rs`). -/
def call_function (P : bytecode.ProgramContainer) (sync_track : String → Option Rat)
    (be : Effect → Bool) (fuel : Nat) (ctx : FunctionContext) (trace : List Effect)
    (function : String) (args : List (String × Value)) : Except RErr (Value × List Effect) :=
  interp P sync_track be fuel (.call ctx trace function args)

/-- `execute_block` (`runtime.rs`). -/
def execute_block (P : bytecode.ProgramContainer) (sync_track : String → Option Rat)
    (be : Effect → Bool) (fuel : Nat) (ctx : FunctionContext) (trace : List Effect)
    (ops : List bytecode.BytecodeOp) : Except RErr (Value × List Effect) :=
  interp P sync_track be fuel (.block ctx trace ops)

end runtime

/-! ## Concrete inputs for the closed theorems

Concrete programs resolve source slices through a token table: the slice
`⟨i, i⟩` stands for the `i`-th entry of the table.  This instantiates the
`src : SourceSlice → String` abstraction of `SourceSlice::to_slice`. -/

/-- The slice standing for token number `i` of a token table. -/
def tok (i : Nat) : SourceSlice := ⟨i, i⟩

/-- Slice resolution against a token table. -/
def tokens (tbl : List String) : SourceSlice → String :=
  fun sl => tbl.getD sl.beginPos ""

/-- Token table for `c1_prog`. -/
def c1_tbl : List String := ["main", "uniform_texture_srgb", "t", "a.png"]

/-- Slice resolution for `c1_prog`. -/
def c1_src : SourceSlice → String := tokens c1_tbl

/-- `fn main() { if 1.0 { uniform_texture_srgb("t", "a.png"); } }` —
the texture declaration sits inside a conditional branch. -/
def c1_prog : ast.Program :=
  { render_targets := []
    functions := [
      { name := tok 0
        params := []
        block := [ .Conditional (.FloatLiteral (tok 0) 1)
            [ .FunctionCall ⟨tok 1, tok 1, [.StringLiteral (tok 2), .StringLiteral (tok 3)]⟩ ]
            none ]
        return_type := none } ] }

/-- `fn main() { uniform_texture_srgb("t", "a.png"); }` — the same
declaration as in `c1_prog`, but as a top-level statement. -/
def c1_top_prog : ast.Program :=
  { render_targets := []
    functions := [
      { name := tok 0
        params := []
        block := [ .FunctionCall ⟨tok 1, tok 1, [.StringLiteral (tok 2), .StringLiteral (tok 3)]⟩ ]
        return_type := none } ] }

/-- A compiled program whose `main` is
`if 1.0 { return 42.0; } return 7.0;`. -/
def c2_P : bytecode.ProgramContainer :=
  { header := bytecode.ProgramHeader.new
    functions := [("main",
      { name := "main"
        params := []
        bytecode := ⟨[ .Conditional (.ConstFloat 1) [.Return (.ConstFloat 42)] none,
                       .Return (.ConstFloat 7) ]⟩ })] }

/-- A compiled program declaring `fn f(x: Float32) { return x; }`. -/
def c4_P : bytecode.ProgramContainer :=
  { header := bytecode.ProgramHeader.new
    functions := [("f",
      { name := "f"
        params := [("x", .Float32)]
        bytecode := ⟨[.Return (.Var "x" [])]⟩ })] }

/-- A compiled program with no functions at all. -/
def c5_P : bytecode.ProgramContainer :=
  { header := bytecode.ProgramHeader.new, functions := [] }

/-- Token table for `c6_prog`. -/
def c6_tbl : List String := ["main", "uniform_texture_srgb", "t1", "a.png", "t2"]

/-- Slice resolution for `c6_prog`. -/
def c6_src : SourceSlice → String := tokens c6_tbl

/-- `fn main() { if 1.0 { uniform_texture_srgb("t1", "a.png");
uniform_texture_srgb("t2", "a.png"); } }` — two textually distinct call
sites with the same texture path and srgb flag, both inside a conditional
branch. -/
def c6_prog : ast.Program :=
  { render_targets := []
    functions := [
      { name := tok 0
        params := []
        block := [ .Conditional (.FloatLiteral (tok 0) 1)
            [ .FunctionCall ⟨tok 1, tok 1, [.StringLiteral (tok 2), .StringLiteral (tok 3)]⟩,
              .FunctionCall ⟨tok 1, tok 1, [.StringLiteral (tok 4), .StringLiteral (tok 3)]⟩ ]
            none ]
        return_type := none } ] }

/-- Token table for `c6w_prog`. -/
def c6w_tbl : List String := ["main", "uniform_texture_srgb", "t1", "a.png", "t2"]

/-- Slice resolution for `c6w_prog`. -/
def c6w_src : SourceSlice → String := tokens c6w_tbl

/-- `fn main() { uniform_texture_srgb("t1", "a.png");
uniform_texture_srgb("t2", "a.png"); }` — the two textually distinct call
sites as top-level statements. -/
def c6w_prog : ast.Program :=
  { render_targets := []
    functions := [
      { name := tok 0
        params := []
        block := [ .FunctionCall ⟨tok 1, tok 1, [.StringLiteral (tok 2), .StringLiteral (tok 3)]⟩,
                   .FunctionCall ⟨tok 1, tok 1, [.StringLiteral (tok 4), .StringLiteral (tok 3)]⟩ ]
        return_type := none } ] }

/-- A Program Header holding exactly the texture declarations collected
from `c6w_prog`. -/
def c6w_header : bytecode.ProgramHeader :=
  ⟨[], [], [], [], [⟨"a.png", true⟩], [], ["a.png"]⟩

/-- Token table for `c7_prog`. -/
def c7_tbl : List String := ["main", "uniform_rtt", "name"]

/-- Slice resolution for `c7_prog`. -/
def c7_src : SourceSlice → String := tokens c7_tbl

/-- `fn main() { uniform_rtt("name"); }` — a `uniform_rtt` call with a
single argument. -/
def c7_prog : ast.Program :=
  { render_targets := []
    functions := [
      { name := tok 0
        params := []
        block := [ .FunctionCall ⟨tok 1, tok 1, [.StringLiteral (tok 2)]⟩ ]
        return_type := none } ] }

/-- Token table for `c7b_prog`. -/
def c7b_tbl : List String := ["main", "uniform_rtt", "n", "t.color", "t", "color"]

/-- Slice resolution for `c7b_prog`. -/
def c7b_src : SourceSlice → String := tokens c7b_tbl

/-- A program declaring a render target `t` with one buffer `color`, whose
`main` calls `uniform_rtt("n", "t.color", 0.0)` — three arguments instead
of two. -/
def c7b_prog : ast.Program :=
  { render_targets := [
      { source_slice := tok 4
        name := tok 4
        width := .FloatLiteral (tok 4) 64
        height := .FloatLiteral (tok 4) 64
        formats := [(tok 5, .Rgba8)]
        has_depth := true } ]
    functions := [
      { name := tok 0
        params := []
        block := [ .FunctionCall ⟨tok 1, tok 1,
            [.StringLiteral (tok 2), .StringLiteral (tok 3), .FloatLiteral (tok 2) 0]⟩ ]
        return_type := none } ] }

/-- Token table for `c8_stmt`. -/
def c8_tbl : List String := ["pipeline_set_blending", "none", "screen"]

/-- Slice resolution for `c8_stmt`. -/
def c8_src : SourceSlice → String := tokens c8_tbl

/-- The statement `pipeline_set_blending("none", "screen");`. -/
def c8_stmt : ast.Stmt :=
  .FunctionCall ⟨tok 0, tok 0, [.StringLiteral (tok 1), .StringLiteral (tok 2)]⟩

/-- Token table for `c9_prog`. -/
def c9_tbl : List String := ["screen", "color"]

/-- Slice resolution for `c9_prog`. -/
def c9_src : SourceSlice → String := tokens c9_tbl

/-- A program declaring a render target named `screen` (with ordinary
other fields) and no functions. -/
def c9_prog : ast.Program :=
  { render_targets := [
      { source_slice := ⟨5, 40⟩
        name := tok 0
        width := .FloatLiteral (tok 0) 64
        height := .FloatLiteral (tok 0) 64
        formats := [(tok 1, .Rgba8)]
        has_depth := true } ]
    functions := [] }

/-- A compiled program declaring a *user* function named `LinColor` (zero
parameters, body `return 99.0;`), which the interceptor should shadow. -/
def c10_P : bytecode.ProgramContainer :=
  { header := bytecode.ProgramHeader.new
    functions := [("LinColor",
      { name := "LinColor"
        params := []
        bytecode := ⟨[.Return (.ConstFloat 99)]⟩ })] }

/-! ## Claim theorems -/

/-- C1: contrary to the claim, the declaration-collection pass
(`walk_render_ops`) visits only the *top-level* statements of each
function body and never recurses into a conditional's branches, so a
`uniform_texture_srgb` declaration inside a conditional branch is not
recorded in the Program Header, and compiling that same call then panics
on the `position(..).unwrap()` lookup instead of succeeding.  Evaluated
here at the failing input `c1_prog` (the declaration inside a conditional:
nothing collected, compilation panics) and contrasted with `c1_top_prog`
(the identical declaration at top level: collected and compiled). -/
theorem C1_collector_skips_conditional_branches_so_compiler_panics :
    bytecode.collect_texture_defs c1_src c1_prog = .ok [] ∧
    bytecode.ProgramContainer.from_ast c1_src c1_prog = .error .panicUnwrap ∧
    bytecode.collect_texture_defs c1_src c1_top_prog = .ok [⟨"a.png", true⟩] ∧
    (∃ c, bytecode.ProgramContainer.from_ast c1_src c1_top_prog = .ok c) :=
  ⟨rfl, rfl, rfl, ⟨_, rfl⟩⟩

/-- C7: contrary to the claim, `emit_uniform_render_target_as_texture`
never checks the argument count: a one-argument `uniform_rtt` call makes
the compiler index `args[1]` out of bounds (a panic, not a semantic
error), and a three-argument call is accepted, the extra argument being
silently ignored. -/
theorem C7_uniform_rtt_missing_arg_count_check :
    bytecode.ProgramContainer.from_ast c7_src c7_prog = .error .panicIndex ∧
    (∃ c, bytecode.ProgramContainer.from_ast c7b_src c7b_prog = .ok c) :=
  ⟨rfl, ⟨_, rfl⟩⟩

/-- C2 counterexample: in `c2_P`, `main` is
`if 1.0 { return 42.0; } return 7.0;`.  The claim says the nested `Return`
determines the function's result (`42.0`), but execution yields `7.0`:
`execute_block` drops the value of a conditional branch and continues. -/
theorem C2_counterexample_nested_return_value_is_dropped :
    runtime.call_function c2_P (fun _ => none) (fun _ => true) 10 ⟨[], []⟩ [] "main" []
      = .ok (.Float32 7, []) ∧
    (Except.ok (runtime.Value.Float32 7, ([] : List runtime.Effect))
        : Except runtime.RErr (runtime.Value × List runtime.Effect))
      ≠ .ok (.Float32 42, []) :=
  ⟨rfl, by decide⟩

/-- C2 (amended): a `Return` op short-circuits the remaining ops of the
block it appears in and its value becomes that block's result; but when
the block is a conditional branch, the enclosing `execute_block` discards
that result value and continues with its own remaining ops — the value
does not bubble up to the calling function. -/
theorem C2_return_short_circuits_own_block_only :
    (∀ (P : bytecode.ProgramContainer) (sync : String → Option Rat)
        (be : runtime.Effect → Bool) (n : Nat) (ctx : runtime.FunctionContext)
        (tr : List runtime.Effect) (e : bytecode.ValueExpr) (rest : List bytecode.BytecodeOp),
      runtime.execute_block P sync be (n + 1) ctx tr (.Return e :: rest)
        = runtime.evaluate_expression P sync be n ctx tr e) ∧
    (∀ (P : bytecode.ProgramContainer) (sync : String → Option Rat)
        (be : runtime.Effect → Bool) (n : Nat) (ctx : runtime.FunctionContext)
        (tr : List runtime.Effect) (cond : bytecode.ValueExpr)
        (a : List bytecode.BytecodeOp) (b : Option (List bytecode.BytecodeOp))
        (rest : List bytecode.BytecodeOp) (v : Rat) (tr₁ : List runtime.Effect)
        (val : runtime.Value) (tr₂ : List runtime.Effect),
      runtime.evaluate_expression P sync be n ctx tr cond = .ok (.Float32 v, tr₁) →
      v > 0 →
      runtime.execute_block P sync be n ctx tr₁ a = .ok (val, tr₂) →
      runtime.execute_block P sync be (n + 1) ctx tr (.Conditional cond a b :: rest)
        = runtime.execute_block P sync be n ctx tr₂ rest) := by
  constructor
  · intro P sync be n ctx tr e rest
    rfl
  · intro P sync be n ctx tr cond a b rest v tr₁ val tr₂ h1 hv h2
    simp only [runtime.evaluate_expression] at h1
    simp only [runtime.execute_block] at h2 ⊢
    simp only [runtime.interp, h1, h2, Bind.bind, Except.bind, if_pos hv]

/-- C2 witness: the amended theorem applied to the concrete program of the
counterexample (condition `1.0`, branch `return 42.0;`, remainder
`return 7.0;`): the branch value `42.0` is discarded and the remainder
determines the result `7.0`. -/
theorem C2_return_short_circuits_own_block_only_witness :
    runtime.execute_block c2_P (fun _ => none) (fun _ => true) 4 ⟨[], []⟩ []
      [.Conditional (.ConstFloat 1) [.Return (.ConstFloat 42)] none, .Return (.ConstFloat 7)]
      = runtime.execute_block c2_P (fun _ => none) (fun _ => true) 3 ⟨[], []⟩ []
          [.Return (.ConstFloat 7)] ∧
    runtime.execute_block c2_P (fun _ => none) (fun _ => true) 3 ⟨[], []⟩ []
      [.Return (.ConstFloat 7)] = .ok (.Float32 7, []) := by
  constructor
  · exact C2_return_short_circuits_own_block_only.2 c2_P (fun _ => none) (fun _ => true)
      3 ⟨[], []⟩ [] (.ConstFloat 1) [.Return (.ConstFloat 42)] none [.Return (.ConstFloat 7)]
      1 [] (.Float32 42) [] rfl (by norm_num) rfl
  · exact (C2_return_short_circuits_own_block_only.1 c2_P (fun _ => none) (fun _ => true)
      2 ⟨[], []⟩ [] (.ConstFloat 7) []).trans rfl

/-- C3 counterexample: with a local variable literally named `sync` bound
to `1.0` and a provider with no tracks, evaluating the variable `sync`
queries the provider for track `""` and fails — the claim's
locals-first order would have returned the local `1.0`. -/
theorem C3_counterexample_sync_shadows_locals :
    runtime.FunctionContext.get_prop ⟨[], [("sync", .Float32 1)]⟩ (fun _ => none) "sync" []
      = .error (.syncTrackNotFound "") ∧
    runtime.FunctionContext.get_prop ⟨[], [("sync", .Float32 1)]⟩ (fun _ => none) "sync" []
      ≠ .ok (.Float32 1) :=
  ⟨rfl, by decide⟩

/-- C3 (amended): `get_prop` tests the name against the literal `sync`
*first*: such a reference always resolves against the sync provider keyed
by the property path joined with `:` (error if the provider has no such
track), ignoring locals and globals entirely; any other name with a
non-empty property path is an error; and a plain name resolves against
the per-call locals first, then the globals, and is otherwise an
unknown-variable error. -/
theorem C3_sync_first_then_locals_then_globals :
    (∀ (sync : String → Option Rat) (g₁ l₁ g₂ l₂ : List (String × runtime.Value))
        (props : List String),
      runtime.FunctionContext.get_prop ⟨g₁, l₁⟩ sync "sync" props
        = runtime.FunctionContext.get_prop ⟨g₂, l₂⟩ sync "sync" props) ∧
    (∀ (sync : String → Option Rat) (ctx : runtime.FunctionContext) (props : List String)
        (v : Rat),
      sync (String.intercalate ":" props) = some v →
      runtime.FunctionContext.get_prop ctx sync "sync" props = .ok (.Float32 v)) ∧
    (∀ (sync : String → Option Rat) (ctx : runtime.FunctionContext) (props : List String),
      sync (String.intercalate ":" props) = none →
      runtime.FunctionContext.get_prop ctx sync "sync" props
        = .error (.syncTrackNotFound (String.intercalate ":" props))) ∧
    (∀ (sync : String → Option Rat) (ctx : runtime.FunctionContext) (name : String)
        (p : String) (ps : List String),
      name ≠ "sync" →
      runtime.FunctionContext.get_prop ctx sync name (p :: ps) = .error .dotOnlyForSync) ∧
    (∀ (sync : String → Option Rat) (g l : List (String × runtime.Value)) (name : String)
        (v : runtime.Value),
      name ≠ "sync" →
      (l.find? (fun q => q.1 = name)).map (·.2) = some v →
      runtime.FunctionContext.get_prop ⟨g, l⟩ sync name [] = .ok v) ∧
    (∀ (sync : String → Option Rat) (g l : List (String × runtime.Value)) (name : String)
        (v : runtime.Value),
      name ≠ "sync" →
      l.find? (fun q => q.1 = name) = none →
      (g.find? (fun q => q.1 = name)).map (·.2) = some v →
      runtime.FunctionContext.get_prop ⟨g, l⟩ sync name [] = .ok v) ∧
    (∀ (sync : String → Option Rat) (g l : List (String × runtime.Value)) (name : String),
      name ≠ "sync" →
      l.find? (fun q => q.1 = name) = none →
      g.find? (fun q => q.1 = name) = none →
      runtime.FunctionContext.get_prop ⟨g, l⟩ sync name [] = .error (.unknownVariable name)) := by
  refine ⟨?_, ?_, ?_, ?_, ?_, ?_, ?_⟩
  · intro sync g₁ l₁ g₂ l₂ props
    simp [runtime.FunctionContext.get_prop]
  · intro sync ctx props v h
    simp [runtime.FunctionContext.get_prop, h]
  · intro sync ctx props h
    simp [runtime.FunctionContext.get_prop, h]
  · intro sync ctx name p ps h
    simp [runtime.FunctionContext.get_prop, h]
  · intro sync g l name v h hl
    simp [runtime.FunctionContext.get_prop, h, Option.orElse, hl]
  · intro sync g l name v h hl hg
    simp [runtime.FunctionContext.get_prop, h, Option.orElse, hl, hg]
  · intro sync g l name h hl hg
    simp [runtime.FunctionContext.get_prop, h, Option.orElse, hl, hg]

/-- C3 witness: the amended theorem applied to concrete inputs — the sync
branch (track `"verse:intensity"` from path `["verse","intensity"]`),
the dotted-non-sync error, a local hit shadowing a global, a fall-through
to a global, and the unknown-variable error. -/
theorem C3_sync_first_then_locals_then_globals_witness :
    runtime.FunctionContext.get_prop ⟨[("x", .Float32 5)], []⟩
        (fun t => if t = "verse:intensity" then some 2 else none) "sync"
        ["verse", "intensity"] = .ok (.Float32 2) ∧
    runtime.FunctionContext.get_prop ⟨[], []⟩ (fun _ => none) "x" ["y"]
      = .error .dotOnlyForSync ∧
    runtime.FunctionContext.get_prop ⟨[("x", .Float32 5)], [("x", .Float32 6)]⟩
        (fun _ => none) "x" [] = .ok (.Float32 6) ∧
    runtime.FunctionContext.get_prop ⟨[("x", .Float32 5)], []⟩
        (fun _ => none) "x" [] = .ok (.Float32 5) ∧
    runtime.FunctionContext.get_prop ⟨[], []⟩ (fun _ => none) "x" []
      = .error (.unknownVariable "x") := by
  refine ⟨?_, ?_, ?_, ?_, ?_⟩
  · exact C3_sync_first_then_locals_then_globals.2.1
      (fun t => if t = "verse:intensity" then some 2 else none)
      ⟨[("x", .Float32 5)], []⟩ ["verse", "intensity"] 2 rfl
  · exact C3_sync_first_then_locals_then_globals.2.2.2.1 (fun _ => none) ⟨[], []⟩
      "x" "y" [] (by decide)
  · exact C3_sync_first_then_locals_then_globals.2.2.2.2.1 (fun _ => none)
      [("x", .Float32 5)] [("x", .Float32 6)] "x" (.Float32 6) (by decide) rfl
  · exact C3_sync_first_then_locals_then_globals.2.2.2.2.2.1 (fun _ => none)
      [("x", .Float32 5)] [] "x" (.Float32 5) (by decide) rfl rfl
  · exact C3_sync_first_then_locals_then_globals.2.2.2.2.2.2 (fun _ => none)
      [] [] "x" (by decide) rfl rfl

/-- C5: executing a `Conditional` op whose condition evaluates to the
float `v` runs the "then" block exactly when `v > 0` (strictly), and
otherwise the "else" block when present, or neither; in every case
execution then continues with the remaining ops of the enclosing block
(the branch's result value discarded). -/
theorem C5_conditional_truthiness_strictly_positive :
    ∀ (P : bytecode.ProgramContainer) (sync : String → Option Rat)
      (be : runtime.Effect → Bool) (n : Nat) (ctx : runtime.FunctionContext)
      (tr : List runtime.Effect) (cond : bytecode.ValueExpr)
      (a : List bytecode.BytecodeOp) (b : Option (List bytecode.BytecodeOp))
      (rest : List bytecode.BytecodeOp) (v : Rat) (tr' : List runtime.Effect),
    runtime.evaluate_expression P sync be n ctx tr cond = .ok (.Float32 v, tr') →
    runtime.execute_block P sync be (n + 1) ctx tr (.Conditional cond a b :: rest) =
      if v > 0 then
        Except.bind (runtime.execute_block P sync be n ctx tr' a)
          (fun d => runtime.execute_block P sync be n ctx d.2 rest)
      else
        match b with
        | some bb =>
            Except.bind (runtime.execute_block P sync be n ctx tr' bb)
              (fun d => runtime.execute_block P sync be n ctx d.2 rest)
        | none => runtime.execute_block P sync be n ctx tr' rest := by
  intro P sync be n ctx tr cond a b rest v tr' h
  simp only [runtime.evaluate_expression] at h
  simp only [runtime.execute_block]
  simp only [runtime.interp, h, Bind.bind, Except.bind]

/-- C5 witness: the theorem applied to concrete conditionals under `c5_P`:
condition `0.5` runs the "then" block (a fullscreen-quad draw), `0.0` and
`-1.0` run the "else" block (a clear), and `0.0` with no "else" block
runs nothing. -/
theorem C5_conditional_truthiness_witness :
    runtime.execute_block c5_P (fun _ => none) (fun _ => true) 6 ⟨[], []⟩ []
        [.Conditional (.ConstFloat (1/2)) [.DrawQuad]
          (some [.Clear (.ConstLinColor ⟨0, 0, 0, 1⟩)])]
      = .ok (.Void, [.RenderFullscreenQuad]) ∧
    runtime.execute_block c5_P (fun _ => none) (fun _ => true) 6 ⟨[], []⟩ []
        [.Conditional (.ConstFloat 0) [.DrawQuad]
          (some [.Clear (.ConstLinColor ⟨0, 0, 0, 1⟩)])]
      = .ok (.Void, [.Clear ⟨0, 0, 0, 1⟩]) ∧
    runtime.execute_block c5_P (fun _ => none) (fun _ => true) 6 ⟨[], []⟩ []
        [.Conditional (.ConstFloat (-1)) [.DrawQuad]
          (some [.Clear (.ConstLinColor ⟨0, 0, 0, 1⟩)])]
      = .ok (.Void, [.Clear ⟨0, 0, 0, 1⟩]) ∧
    runtime.execute_block c5_P (fun _ => none) (fun _ => true) 6 ⟨[], []⟩ []
        [.Conditional (.ConstFloat 0) [.DrawQuad] none]
      = .ok (.Void, []) := by
  refine ⟨?_, ?_, ?_, ?_⟩
  · exact (C5_conditional_truthiness_strictly_positive c5_P (fun _ => none) (fun _ => true)
      5 ⟨[], []⟩ [] (.ConstFloat (1/2)) [.DrawQuad]
      (some [.Clear (.ConstLinColor ⟨0, 0, 0, 1⟩)]) [] (1/2) [] rfl).trans
      (by rw [if_pos (show (1/2 : Rat) > 0 by norm_num)]; rfl)
  · exact (C5_conditional_truthiness_strictly_positive c5_P (fun _ => none) (fun _ => true)
      5 ⟨[], []⟩ [] (.ConstFloat 0) [.DrawQuad]
      (some [.Clear (.ConstLinColor ⟨0, 0, 0, 1⟩)]) [] 0 [] rfl).trans (by rfl)
  · exact (C5_conditional_truthiness_strictly_positive c5_P (fun _ => none) (fun _ => true)
      5 ⟨[], []⟩ [] (.ConstFloat (-1)) [.DrawQuad]
      (some [.Clear (.ConstLinColor ⟨0, 0, 0, 1⟩)]) [] (-1) [] rfl).trans (by rfl)
  · exact (C5_conditional_truthiness_strictly_positive c5_P (fun _ => none) (fun _ => true)
      5 ⟨[], []⟩ [] (.ConstFloat 0) [.DrawQuad] none [] 0 [] rfl).trans (by rfl)

/-- C10: a runtime call named `LinColor` is intercepted before any
user-function lookup, for *every* program `P` (so a user-defined function
named `LinColor` can never be invoked): with no arguments the intercept
panics indexing `args[0]` (no argument-count check), and with at least
four float-valued arguments it evaluates exactly the first four and
yields the `LinColor` value, any further arguments ignored. -/
theorem C10_lincolor_intercepted_before_user_lookup :
    (∀ (P : bytecode.ProgramContainer) (sync : String → Option Rat)
        (be : runtime.Effect → Bool) (n : Nat) (ctx : runtime.FunctionContext)
        (tr : List runtime.Effect),
      runtime.execute_function_call P sync be (n + 1) ctx tr ⟨"LinColor", []⟩
        = .error .panicIndex) ∧
    (∀ (P : bytecode.ProgramContainer) (sync : String → Option Rat)
        (be : runtime.Effect → Bool) (n : Nat) (ctx : runtime.FunctionContext)
        (tr : List runtime.Effect) (a0 a1 a2 a3 : bytecode.ValueExpr)
        (restArgs : List bytecode.ValueExpr) (r g b a : Rat)
        (tr0 tr1 tr2 tr3 : List runtime.Effect),
      runtime.evaluate_expression P sync be n ctx tr a0 = .ok (.Float32 r, tr0) →
      runtime.evaluate_expression P sync be n ctx tr0 a1 = .ok (.Float32 g, tr1) →
      runtime.evaluate_expression P sync be n ctx tr1 a2 = .ok (.Float32 b, tr2) →
      runtime.evaluate_expression P sync be n ctx tr2 a3 = .ok (.Float32 a, tr3) →
      runtime.execute_function_call P sync be (n + 1) ctx tr
          ⟨"LinColor", a0 :: a1 :: a2 :: a3 :: restArgs⟩
        = .ok (.LinColor (LinearRGBA.from_f32 r g b a), tr3)) := by
  constructor
  · intro P sync be n ctx tr
    rfl
  · intro P sync be n ctx tr a0 a1 a2 a3 restArgs r g b a tr0 tr1 tr2 tr3 h0 h1 h2 h3
    simp only [runtime.evaluate_expression] at h0 h1 h2 h3
    simp only [runtime.execute_function_call]
    simp only [runtime.interp, runtime.rt_arg_index, List.get?, h0, h1, h2, h3,
      runtime.Value.as_f32, Bind.bind, Except.bind, if_pos]

/-- C10 witness: the theorem applied under `c10_P`, which *does* declare a
zero-parameter user function `LinColor` (whose body would return `99.0`):
the zero-argument call panics instead of invoking it, and a five-argument
call yields the `LinColor` built from the first four arguments. -/
theorem C10_lincolor_intercepted_witness :
    runtime.execute_function_call c10_P (fun _ => none) (fun _ => true) 5 ⟨[], []⟩ []
        ⟨"LinColor", []⟩ = .error .panicIndex ∧
    runtime.execute_function_call c10_P (fun _ => none) (fun _ => true) 5 ⟨[], []⟩ []
        ⟨"LinColor", [.ConstFloat 1, .ConstFloat 2, .ConstFloat 3, .ConstFloat 1,
          .ConstString "extra"]⟩
      = .ok (.LinColor (LinearRGBA.from_f32 1 2 3 1), []) := by
  constructor
  · exact C10_lincolor_intercepted_before_user_lookup.1 c10_P (fun _ => none)
      (fun _ => true) 4 ⟨[], []⟩ []
  · exact C10_lincolor_intercepted_before_user_lookup.2 c10_P (fun _ => none)
      (fun _ => true) 4 ⟨[], []⟩ [] (.ConstFloat 1) (.ConstFloat 2) (.ConstFloat 3)
      (.ConstFloat 1) [.ConstString "extra"] 1 2 3 1 [] [] [] [] rfl rfl rfl rfl

/-- C4: a call to a user-defined function checks the argument count, then
evaluates each argument and requires its runtime type to equal the
declared parameter type exactly (any mismatch is a runtime error, with no
coercion), and on success executes the callee's body in a fresh scope
whose locals are exactly the bound parameters — the caller's locals are
not consulted at all (conjunct 7 holds for arbitrary caller locals). -/
theorem C4_user_call_type_checked_fresh_scope :
    (∀ (P : bytecode.ProgramContainer) (sync : String → Option Rat)
        (be : runtime.Effect → Bool) (n : Nat) (ctx : runtime.FunctionContext)
        (tr : List runtime.Effect) (fname : String) (args : List bytecode.ValueExpr)
        (f : bytecode.Function),
      fname ≠ "LinColor" → P.get_function fname = some f →
      f.params.length ≠ args.length →
      runtime.execute_function_call P sync be (n + 1) ctx tr ⟨fname, args⟩
        = .error (.wrongArgumentCount f.params.length fname args.length)) ∧
    (∀ (P : bytecode.ProgramContainer) (sync : String → Option Rat)
        (be : runtime.Effect → Bool) (n : Nat) (ctx : runtime.FunctionContext)
        (tr : List runtime.Effect) (fname : String) (args : List bytecode.ValueExpr)
        (f : bytecode.Function),
      fname ≠ "LinColor" → P.get_function fname = some f →
      f.params.length = args.length →
      runtime.execute_function_call P sync be (n + 1) ctx tr ⟨fname, args⟩
        = runtime.interp P sync be n (.bind_args ctx tr f.params args [] fname)) ∧
    (∀ (P : bytecode.ProgramContainer) (sync : String → Option Rat)
        (be : runtime.Effect → Bool) (n : Nat) (ctx : runtime.FunctionContext)
        (tr : List runtime.Effect) (p : String × ast.Ty) (ps : List (String × ast.Ty))
        (arg : bytecode.ValueExpr) (rest : List bytecode.ValueExpr)
        (locals : List (String × runtime.Value)) (fname : String) (v : runtime.Value)
        (tr' : List runtime.Effect),
      runtime.evaluate_expression P sync be n ctx tr arg = .ok (v, tr') →
      v.value_type ≠ p.2 →
      runtime.interp P sync be (n + 1) (.bind_args ctx tr (p :: ps) (arg :: rest) locals fname)
        = .error (.argumentTypeMismatch p.1 fname p.2)) ∧
    (∀ (P : bytecode.ProgramContainer) (sync : String → Option Rat)
        (be : runtime.Effect → Bool) (n : Nat) (ctx : runtime.FunctionContext)
        (tr : List runtime.Effect) (p : String × ast.Ty) (ps : List (String × ast.Ty))
        (arg : bytecode.ValueExpr) (rest : List bytecode.ValueExpr)
        (locals : List (String × runtime.Value)) (fname : String) (v : runtime.Value)
        (tr' : List runtime.Effect),
      runtime.evaluate_expression P sync be n ctx tr arg = .ok (v, tr') →
      v.value_type = p.2 →
      runtime.interp P sync be (n + 1) (.bind_args ctx tr (p :: ps) (arg :: rest) locals fname)
        = runtime.interp P sync be n (.bind_args ctx tr' ps rest ((p.1, v) :: locals) fname)) ∧
    (∀ (P : bytecode.ProgramContainer) (sync : String → Option Rat)
        (be : runtime.Effect → Bool) (n : Nat) (ctx : runtime.FunctionContext)
        (tr : List runtime.Effect) (locals : List (String × runtime.Value)) (fname : String),
      runtime.interp P sync be (n + 1) (.bind_args ctx tr [] [] locals fname)
        = runtime.call_function P sync be n ctx tr fname locals) ∧
    (∀ (P : bytecode.ProgramContainer) (sync : String → Option Rat)
        (be : runtime.Effect → Bool) (n : Nat) (ctx : runtime.FunctionContext)
        (tr : List runtime.Effect) (fname : String)
        (locals : List (String × runtime.Value)) (blk : bytecode.BlockBytecode),
      P.get_ops fname = some blk →
      runtime.call_function P sync be (n + 1) ctx tr fname locals
        = runtime.execute_block P sync be n ⟨ctx.globals, locals⟩ tr blk.bytecode) ∧
    (∀ (P : bytecode.ProgramContainer) (sync : String → Option Rat)
        (be : runtime.Effect → Bool) (n : Nat) (g l₁ l₂ : List (String × runtime.Value))
        (tr : List runtime.Effect) (fname : String)
        (locals : List (String × runtime.Value)),
      runtime.call_function P sync be n ⟨g, l₁⟩ tr fname locals
        = runtime.call_function P sync be n ⟨g, l₂⟩ tr fname locals) := by
  refine ⟨?_, ?_, ?_, ?_, ?_, ?_, ?_⟩
  · intro P sync be n ctx tr fname args f hn hf hlen
    simp only [runtime.execute_function_call]
    simp only [runtime.interp, if_neg hn, hf, if_pos hlen]
  · intro P sync be n ctx tr fname args f hn hf hlen
    simp only [runtime.execute_function_call]
    simp only [runtime.interp, if_neg hn, hf, hlen]
    simp
  · intro P sync be n ctx tr p ps arg rest locals fname v tr' h hne
    simp only [runtime.evaluate_expression] at h
    simp only [runtime.interp, h, Bind.bind, Except.bind, if_neg hne]
  · intro P sync be n ctx tr p ps arg rest locals fname v tr' h heq
    simp only [runtime.evaluate_expression] at h
    simp only [runtime.interp, h, Bind.bind, Except.bind, if_pos heq]
  · intro P sync be n ctx tr locals fname
    rfl
  · intro P sync be n ctx tr fname locals blk hops
    simp only [runtime.call_function, runtime.execute_block]
    simp only [runtime.interp, hops]
  · intro P sync be n g l₁ l₂ tr fname locals
    cases n with
    | zero => rfl
    | succ m =>
        simp only [runtime.call_function]
        simp only [runtime.interp]

/-- C4 witness: the theorem applied under `c4_P`
(`fn f(x: Float32) { return x; }`): a `Str` argument for the `Float32`
parameter fails with the type-mismatch error (no coercion); a wrong
argument count fails; and a well-typed call executes the body in a fresh
scope containing exactly `x` (the caller's local `junk` invisible,
arbitrary caller locals interchangeable). -/
theorem C4_user_call_type_checked_witness :
    runtime.execute_function_call c4_P (fun _ => none) (fun _ => true) 5
        ⟨[], [("junk", .Str "j")]⟩ [] ⟨"f", [.ConstString "s"]⟩
      = .error (.argumentTypeMismatch "x" "f" .Float32) ∧
    runtime.execute_function_call c4_P (fun _ => none) (fun _ => true) 5 ⟨[], []⟩ []
        ⟨"f", []⟩ = .error (.wrongArgumentCount 1 "f" 0) ∧
    runtime.call_function c4_P (fun _ => none) (fun _ => true) 5
        ⟨[("time", .Float32 0)], [("junk", .Str "j")]⟩ [] "f" [("x", .Float32 3)]
      = runtime.execute_block c4_P (fun _ => none) (fun _ => true) 4
          ⟨[("time", .Float32 0)], [("x", .Float32 3)]⟩ [] [.Return (.Var "x" [])] ∧
    runtime.execute_block c4_P (fun _ => none) (fun _ => true) 4
        ⟨[("time", .Float32 0)], [("x", .Float32 3)]⟩ [] [.Return (.Var "x" [])]
      = .ok (.Float32 3, []) ∧
    runtime.call_function c4_P (fun _ => none) (fun _ => true) 5
        ⟨[("time", .Float32 0)], [("junk", .Str "j")]⟩ [] "f" [("x", .Float32 3)]
      = runtime.call_function c4_P (fun _ => none) (fun _ => true) 5
          ⟨[("time", .Float32 0)], []⟩ [] "f" [("x", .Float32 3)] := by
  refine ⟨?_, ?_, ?_, ?_, ?_⟩
  · exact (C4_user_call_type_checked_fresh_scope.2.1 c4_P (fun _ => none) (fun _ => true)
      4 ⟨[], [("junk", .Str "j")]⟩ [] "f" [.ConstString "s"]
      ⟨"f", [("x", .Float32)], ⟨[.Return (.Var "x" [])]⟩⟩ (by decide) rfl rfl).trans
      (C4_user_call_type_checked_fresh_scope.2.2.1 c4_P (fun _ => none) (fun _ => true)
        3 ⟨[], [("junk", .Str "j")]⟩ [] ("x", .Float32) [] (.ConstString "s") [] [] "f"
        (.Str "s") [] rfl (by decide))
  · exact C4_user_call_type_checked_fresh_scope.1 c4_P (fun _ => none) (fun _ => true)
      4 ⟨[], []⟩ [] "f" [] ⟨"f", [("x", .Float32)], ⟨[.Return (.Var "x" [])]⟩⟩
      (by decide) rfl (by decide)
  · exact C4_user_call_type_checked_fresh_scope.2.2.2.2.2.1 c4_P (fun _ => none)
      (fun _ => true) 4 ⟨[("time", .Float32 0)], [("junk", .Str "j")]⟩ [] "f"
      [("x", .Float32 3)] ⟨[.Return (.Var "x" [])]⟩ rfl
  · rfl
  · exact C4_user_call_type_checked_fresh_scope.2.2.2.2.2.2 c4_P (fun _ => none)
      (fun _ => true) 5 [("time", .Float32 0)] [("junk", .Str "j")] [] [] "f"
      [("x", .Float32 3)]

/-- C8 counterexample: for `pipeline_set_blending("none", "screen")` the
string `"screen"` does not split into exactly two parts, yet the compiler
accepts the call (emitting buffer index `0`) instead of raising the
semantic error the claim requires: `emit_pipeline_set_blending`
special-cases the literal `"screen"` before any splitting. -/
theorem C8_counterexample_screen_bypasses_split :
    (split_char '.' "screen").length ≠ 2 ∧
    bytecode.stmt_from_ast c8_src bytecode.ProgramHeader.new c8_stmt
      = .ok (.PipelineSetBlending 0 .None) :=
  ⟨by decide, rfl⟩

/-- C8 (amended): for every `uniform_rtt` call, and for every
`pipeline_set_blending` call whose target-name string is not the literal
`"screen"`, the target-name argument is split on `.` and any string not
splitting into exactly two parts is a semantic error carrying that
argument's source slice; `pipeline_set_blending` with the literal
`"screen"` instead skips the split and is accepted with buffer index 0. -/
theorem C8_target_buffer_split_checked :
    (∀ (src : SourceSlice → String) (fc : ast.FunctionCallExpr)
        (target_defs : List bytecode.RenderTargetDef) (u s : SourceSlice),
      fc.args = [.StringLiteral u, .StringLiteral s] →
      (split_char '.' (src s)).length ≠ 2 →
      bytecode.emit_uniform_render_target_as_texture src fc target_defs
        = .error (.sem ⟨s, .invalidTargetBufferName (src s)⟩)) ∧
    (∀ (src : SourceSlice → String) (fc : ast.FunctionCallExpr)
        (target_defs : List bytecode.RenderTargetDef) (a0 : ast.ValueExpr) (s : SourceSlice),
      fc.args = [a0, .StringLiteral s] →
      src s ≠ "screen" →
      (split_char '.' (src s)).length ≠ 2 →
      bytecode.emit_pipeline_set_blending src fc target_defs
        = .error (.sem ⟨s, .invalidTargetBufferName (src s)⟩)) ∧
    (∀ (src : SourceSlice → String) (fc : ast.FunctionCallExpr)
        (target_defs : List bytecode.RenderTargetDef) (m s : SourceSlice)
        (mode : BlendMode),
      fc.args = [.StringLiteral m, .StringLiteral s] →
      src s = "screen" →
      BlendMode.from_str (src m) = some mode →
      bytecode.emit_pipeline_set_blending src fc target_defs
        = .ok (.PipelineSetBlending 0 mode)) := by
  refine ⟨?_, ?_, ?_⟩
  · intro src fc target_defs u s hargs hsplit
    simp only [bytecode.emit_uniform_render_target_as_texture, bytecode.arg_index, hargs,
      List.get?, bytecode.expect_ast_string, ast.ValueExpr.as_string, Except.mapError,
      ast.ValueExpr.source_slice, Bind.bind, Except.bind, if_pos hsplit,
      bytecode.SemanticError.error_from_ast]
  · intro src fc target_defs a0 s hargs hscreen hsplit
    simp only [bytecode.emit_pipeline_set_blending, bytecode.expect_args_count, hargs,
      List.length_cons, List.length_nil, bytecode.arg_index, List.get?,
      bytecode.expect_ast_string, ast.ValueExpr.as_string, Except.mapError,
      ast.ValueExpr.source_slice, Bind.bind, Except.bind, if_neg hscreen, if_pos hsplit,
      bytecode.SemanticError.error_from_ast]
    simp
  · intro src fc target_defs m s mode hargs hscreen hmode
    simp only [bytecode.emit_pipeline_set_blending, bytecode.expect_args_count, hargs,
      List.length_cons, List.length_nil, bytecode.arg_index, List.get?,
      bytecode.expect_ast_string, ast.ValueExpr.as_string, Except.mapError,
      ast.ValueExpr.source_slice, Bind.bind, Except.bind, if_pos hscreen, hmode]
    simp

/-- C8 witness: the amended theorem applied to concrete calls —
`uniform_rtt("n", "nodots")` and `pipeline_set_blending("none", "a.b.c")`
are rejected with the invalid-name error on the second argument's slice,
while `pipeline_set_blending("none", "screen")` is accepted. -/
theorem C8_target_buffer_split_checked_witness :
    bytecode.emit_uniform_render_target_as_texture (tokens ["n", "nodots"])
        ⟨tok 0, tok 0, [.StringLiteral (tok 0), .StringLiteral (tok 1)]⟩ []
      = .error (.sem ⟨tok 1, .invalidTargetBufferName "nodots"⟩) ∧
    bytecode.emit_pipeline_set_blending (tokens ["none", "a.b.c"])
        ⟨tok 0, tok 0, [.StringLiteral (tok 0), .StringLiteral (tok 1)]⟩ []
      = .error (.sem ⟨tok 1, .invalidTargetBufferName "a.b.c"⟩) ∧
    bytecode.emit_pipeline_set_blending (tokens ["none", "screen"])
        ⟨tok 0, tok 0, [.StringLiteral (tok 0), .StringLiteral (tok 1)]⟩ []
      = .ok (.PipelineSetBlending 0 .None) := by
  refine ⟨?_, ?_, ?_⟩
  · exact C8_target_buffer_split_checked.1 (tokens ["n", "nodots"])
      ⟨tok 0, tok 0, [.StringLiteral (tok 0), .StringLiteral (tok 1)]⟩ []
      (tok 0) (tok 1) rfl (by decide)
  · exact C8_target_buffer_split_checked.2.1 (tokens ["none", "a.b.c"])
      ⟨tok 0, tok 0, [.StringLiteral (tok 0), .StringLiteral (tok 1)]⟩ []
      (.StringLiteral (tok 0)) (tok 1) rfl (by decide) (by decide)
  · exact C8_target_buffer_split_checked.2.2 (tokens ["none", "screen"])
      ⟨tok 0, tok 0, [.StringLiteral (tok 0), .StringLiteral (tok 1)]⟩ []
      (tok 0) (tok 1) .None rfl rfl rfl

/-- Helper: a successful run of the render-target collection loop over a
prefix continues over appended declarations from the accumulated state. -/
theorem collect_target_defs_go_append (src : SourceSlice → String) :
    ∀ (l₁ : List ast.RenderTargetDef) (acc m : List bytecode.RenderTargetDef),
    bytecode.collect_target_defs_go src acc l₁ = .ok m →
    ∀ l₂, bytecode.collect_target_defs_go src acc (l₁ ++ l₂)
      = bytecode.collect_target_defs_go src m l₂ := by
  intro l₁
  induction l₁ with
  | nil =>
      intro acc m h l₂
      simp only [bytecode.collect_target_defs_go] at h
      cases h
      rfl
  | cons op ops ih =>
      intro acc m h l₂
      simp only [bytecode.collect_target_defs_go] at h ⊢
      by_cases hscr : src op.name = "screen"
      · rw [if_pos hscr] at h
        cases h
      · rw [if_neg hscr] at h ⊢
        cases hfa : bytecode.RenderTargetDef.from_ast src op with
        | error e =>
            rw [hfa] at h
            simp only [Bind.bind, Except.bind] at h
            exact Except.noConfusion h
        | ok pd =>
            rw [hfa] at h
            simp only [Bind.bind, Except.bind] at h ⊢
            by_cases hdup : acc.any (fun r => r.name = pd.name)
            · rw [if_pos hdup] at h
              cases h
            · rw [if_neg hdup] at h ⊢
              exact ih (acc ++ [pd]) m h l₂

/-- Helper: if the render-target collection loop succeeds, no traversed
declaration was named `screen`. -/
theorem collect_target_defs_go_ok_no_screen (src : SourceSlice → String) :
    ∀ (targets : List ast.RenderTargetDef) (acc l : List bytecode.RenderTargetDef),
    bytecode.collect_target_defs_go src acc targets = .ok l →
    ∀ rt ∈ targets, src rt.name ≠ "screen" := by
  intro targets
  induction targets with
  | nil =>
      intro acc l _ rt hmem
      cases hmem
  | cons op ops ih =>
      intro acc l h rt hmem
      simp only [bytecode.collect_target_defs_go] at h
      by_cases hscr : src op.name = "screen"
      · rw [if_pos hscr] at h
        cases h
      · rw [if_neg hscr] at h
        cases hfa : bytecode.RenderTargetDef.from_ast src op with
        | error e =>
            rw [hfa] at h
            simp only [Bind.bind, Except.bind] at h
            exact Except.noConfusion h
        | ok pd =>
            rw [hfa] at h
            simp only [Bind.bind, Except.bind] at h
            by_cases hdup : acc.any (fun r => r.name = pd.name)
            · rw [if_pos hdup] at h
              cases h
            · rw [if_neg hdup] at h
              rcases List.mem_cons.mp hmem with heq | hmem'
              · subst heq
                exact hscr
              · exact ih (acc ++ [pd]) l h rt hmem'

/-- C9: a program declaring a render target named `screen` never compiles
(the whole compilation fails with a semantic error), regardless of the
target's other fields; and when the collection loop reaches the `screen`
declaration (everything before it having collected successfully) the
reported error is the reserved-name error carrying exactly that
declaration's source slice. -/
theorem C9_reserved_screen_always_fails :
    (∀ (src : SourceSlice → String) (p : ast.Program),
      (∃ rt ∈ p.render_targets, src rt.name = "screen") →
      ∃ e : bytecode.SemanticError,
        bytecode.ProgramContainer.from_ast src p = .error (.sem e)) ∧
    (∀ (src : SourceSlice → String) (pre post : List ast.RenderTargetDef)
        (scr : ast.RenderTargetDef) (fns : List ast.Function)
        (l : List bytecode.RenderTargetDef),
      bytecode.collect_target_defs_go src [] pre = .ok l →
      src scr.name = "screen" →
      bytecode.collect_target_defs src ⟨pre ++ scr :: post, fns⟩
        = .error ⟨scr.source_slice, .reservedScreenName⟩) := by
  constructor
  · rintro src p ⟨rt, hmem, hscr⟩
    cases h : bytecode.collect_target_defs src p with
    | ok l =>
        simp only [bytecode.collect_target_defs] at h
        exact absurd hscr
          (collect_target_defs_go_ok_no_screen src p.render_targets [] l h rt hmem)
    | error e =>
        refine ⟨e, ?_⟩
        simp only [bytecode.ProgramContainer.from_ast, h, Except.mapError, Bind.bind,
          Except.bind]
  · intro src pre post scr fns l hpre hscr
    simp only [bytecode.collect_target_defs] at hpre ⊢
    rw [collect_target_defs_go_append src pre [] l hpre (scr :: post)]
    simp only [bytecode.collect_target_defs_go, if_pos hscr,
      bytecode.SemanticError.error_from_ast]

/-- C9 witness: the theorem applied to `c9_prog`, whose single render
target is named `screen` and spans source bytes `[5, 40)`: collection
reports the reserved-name error at that slice, and the whole compilation
fails with a semantic error. -/
theorem C9_reserved_screen_always_fails_witness :
    bytecode.collect_target_defs c9_src c9_prog
      = .error ⟨⟨5, 40⟩, .reservedScreenName⟩ ∧
    ∃ e : bytecode.SemanticError,
      bytecode.ProgramContainer.from_ast c9_src c9_prog = .error (.sem e) := by
  constructor
  · exact C9_reserved_screen_always_fails.2 c9_src [] []
      { source_slice := ⟨5, 40⟩
        name := tok 0
        width := .FloatLiteral (tok 0) 64
        height := .FloatLiteral (tok 0) 64
        formats := [(tok 1, .Rgba8)]
        has_depth := true } [] [] rfl rfl
  · exact C9_reserved_screen_always_fails.1 c9_src c9_prog
      ⟨{ source_slice := ⟨5, 40⟩
         name := tok 0
         width := .FloatLiteral (tok 0) 64
         height := .FloatLiteral (tok 0) 64
         formats := [(tok 1, .Rgba8)]
         has_depth := true }, List.mem_singleton.mpr rfl, rfl⟩

/-- Helper: an invariant preserved by every successful step of an
`Except`-valued `foldlM` holds for its final state. -/
theorem foldlM_except_invariant {α σ ε : Type} (f : σ → α → Except ε σ) (I : σ → Prop)
    (hf : ∀ s x s', I s → f s x = .ok s' → I s') :
    ∀ (l : List α) (init s : σ), I init → l.foldlM f init = .ok s → I s := by
  intro l
  induction l with
  | nil =>
      intro init s h0 hfold
      simp only [List.foldlM_nil, pure, Except.pure] at hfold
      cases hfold
      exact h0
  | cons x xs ih =>
      intro init s h0 hfold
      rw [List.foldlM_cons] at hfold
      cases hx : f init x with
      | error e =>
          rw [hx] at hfold
          simp only [Bind.bind, Except.bind] at hfold
          exact Except.noConfusion hfold
      | ok s₁ =>
          rw [hx] at hfold
          simp only [Bind.bind, Except.bind] at hfold
          exact ih s₁ s (hf init x s₁ h0 hx) hfold

/-- Helper: a property established by the step at some member of the list
and preserved by every other successful step holds for the final state of
an `Except`-valued `foldlM`. -/
theorem foldlM_except_establish {α σ ε : Type} (f : σ → α → Except ε σ) (Q : σ → Prop)
    (hmono : ∀ s x s', f s x = .ok s' → Q s → Q s')
    (x₀ : α) (hx : ∀ s s', f s x₀ = .ok s' → Q s') :
    ∀ (l : List α) (init s : σ), x₀ ∈ l → l.foldlM f init = .ok s → Q s := by
  intro l
  induction l with
  | nil =>
      intro init s hmem
      cases hmem
  | cons y ys ih =>
      intro init s hmem hfold
      rw [List.foldlM_cons] at hfold
      cases hy : f init y with
      | error e =>
          rw [hy] at hfold
          simp only [Bind.bind, Except.bind] at hfold
          exact Except.noConfusion hfold
      | ok s₁ =>
          rw [hy] at hfold
          simp only [Bind.bind, Except.bind] at hfold
          rcases List.mem_cons.mp hmem with heq | hmem'
          · exact foldlM_except_invariant f Q (fun a z b hQ hab => hmono a z b hab hQ)
              ys s₁ s (hx init s₁ (heq ▸ hy)) hfold
          · exact ih s₁ s hmem' hfold

/-- Helper: `walk_render_ops` preserves a per-step invariant. -/
theorem walk_render_ops_invariant {σ : Type} (p : ast.Program)
    (f : σ → ast.Stmt → Except bytecode.SemanticError σ) (I : σ → Prop)
    (hf : ∀ s x s', I s → f s x = .ok s' → I s')
    (init s : σ) (h0 : I init) (hw : bytecode.walk_render_ops p f init = .ok s) : I s := by
  unfold bytecode.walk_render_ops at hw
  exact foldlM_except_invariant _ I
    (fun s fn s' hI hok => foldlM_except_invariant f I hf fn.block s s' hI hok)
    p.functions init s h0 hw

/-- Helper: a property established at some top-level statement of some
function body (and preserved by every other step) holds for the final
state of `walk_render_ops`. -/
theorem walk_render_ops_establish {σ : Type} (p : ast.Program)
    (f : σ → ast.Stmt → Except bytecode.SemanticError σ) (Q : σ → Prop)
    (hmono : ∀ s x s', f s x = .ok s' → Q s → Q s')
    (fn : ast.Function) (st : ast.Stmt)
    (hfn : fn ∈ p.functions) (hst : st ∈ fn.block)
    (hx : ∀ s s', f s st = .ok s' → Q s')
    (init s : σ) (hw : bytecode.walk_render_ops p f init = .ok s) : Q s := by
  unfold bytecode.walk_render_ops at hw
  refine foldlM_except_establish _ Q ?_ fn ?_ p.functions init s hfn hw
  · intro s fnx s' hok hQ
    exact foldlM_except_invariant f Q (fun a z b hQ' hab => hmono a z b hab hQ')
      fnx.block s s' hQ hok
  · intro s s' hok
    exact foldlM_except_establish f Q hmono st hx fn.block s s' hst hok

/-- Helper: one texture-collection step either leaves the state unchanged
or appends one `TextureDef` not yet present. -/
theorem collect_texture_defs_step_shape (src : SourceSlice → String)
    (s : List bytecode.TextureDef) (x : ast.Stmt) (s' : List bytecode.TextureDef)
    (h : bytecode.collect_texture_defs_step src s x = .ok s') :
    s' = s ∨ ∃ td, td ∉ s ∧ s' = s ++ [td] := by
  cases x with
  | FunctionCall call =>
      simp only [bytecode.collect_texture_defs_step] at h
      split at h
      · cases he : bytecode.expect_ast_string ((call.args.drop 1).headD (.Var ⟨0, 0⟩)) src with
        | error e =>
            rw [he] at h
            simp only [Bind.bind, Except.bind] at h
            exact Except.noConfusion h
        | ok path =>
            rw [he] at h
            simp only [Bind.bind, Except.bind] at h
            split at h
            · cases h
              exact Or.inl rfl
            · cases h
              rename_i hany
              refine Or.inr ⟨_, ?_, rfl⟩
              intro hmem
              exact hany (List.any_eq_true.mpr ⟨_, hmem, by simp⟩)
      · cases h
        exact Or.inl rfl
  | Return e =>
      simp only [bytecode.collect_texture_defs_step] at h
      cases h
      exact Or.inl rfl
  | Conditional c a b =>
      simp only [bytecode.collect_texture_defs_step] at h
      cases h
      exact Or.inl rfl

/-- Helper: a texture-collection step preserves membership of any
already-collected `TextureDef`. -/
theorem collect_texture_defs_step_mono (src : SourceSlice → String)
    (td : bytecode.TextureDef) (s : List bytecode.TextureDef) (x : ast.Stmt)
    (s' : List bytecode.TextureDef)
    (h : bytecode.collect_texture_defs_step src s x = .ok s') (hmem : td ∈ s) : td ∈ s' := by
  rcases collect_texture_defs_step_shape src s x s' h with heq | ⟨td', _, heq⟩
  · exact heq ▸ hmem
  · exact heq ▸ List.mem_append_left _ hmem

/-- Helper: a texture-collection step preserves `Nodup` of the collected
definitions. -/
theorem collect_texture_defs_step_nodup (src : SourceSlice → String)
    (s : List bytecode.TextureDef) (x : ast.Stmt) (s' : List bytecode.TextureDef)
    (h : bytecode.collect_texture_defs_step src s x = .ok s') (hnd : s.Nodup) : s'.Nodup := by
  rcases collect_texture_defs_step_shape src s x s' h with heq | ⟨td, hni, heq⟩
  · exact heq ▸ hnd
  · subst heq
    simp [List.nodup_append, hnd, hni]

/-- Helper: the texture-collection step at a two-string-argument
`uniform_texture_srgb` call leaves its `TextureDef` in the state. -/
theorem collect_texture_defs_step_establish (src : SourceSlice → String)
    (call : ast.FunctionCallExpr) (u psl : SourceSlice)
    (hname : src call.function = "uniform_texture_srgb")
    (hargs : call.args = [.StringLiteral u, .StringLiteral psl]) :
    ∀ s s', bytecode.collect_texture_defs_step src s (.FunctionCall call) = .ok s' →
      (⟨src psl, true⟩ : bytecode.TextureDef) ∈ s' := by
  intro s s' h
  simp only [bytecode.collect_texture_defs_step, hname, hargs, List.length_cons,
    List.length_nil, List.drop, List.headD, bytecode.expect_ast_string,
    ast.ValueExpr.as_string, Except.mapError, Bind.bind, Except.bind, if_pos,
    String.reduceEq, or_false, true_and, and_true, or_true, true_or, if_true,
    decide_True] at h
  split at h
  · cases h
    rename_i hany
    rcases List.any_eq_true.mp hany with ⟨d, hd, hdq⟩
    have : d = ⟨src psl, true⟩ := by simpa using hdq
    exact this ▸ hd
  · cases h
    exact List.mem_append_right _ (List.mem_singleton.mpr rfl)

/-- Helper: the first-position lookup of a present element succeeds. -/
theorem vec_position_some_of_mem {α : Type} [DecidableEq α] (a : α) :
    ∀ (l : List α), a ∈ l → ∃ i, vec_position (fun x => x = a) l = some i := by
  intro l
  induction l with
  | nil =>
      intro h
      cases h
  | cons x xs ih =>
      intro h
      by_cases hx : x = a
      · exact ⟨0, by simp [vec_position, hx]⟩
      · rcases List.mem_cons.mp h with h' | h'
        · exact absurd h'.symm hx
        · obtain ⟨i, hi⟩ := ih h'
          exact ⟨i + 1, by simp [vec_position, hx, hi]⟩

/-- Helper: `emit_uniform_texture` on a two-string-argument call whose
`TextureDef` is in the header resolves to the `UniformTexture` op whose
index is that def's first position. -/
theorem emit_uniform_texture_index (src : SourceSlice → String)
    (fc : ast.FunctionCallExpr) (defs : List bytecode.TextureDef) (u psl : SourceSlice)
    (hargs : fc.args = [.StringLiteral u, .StringLiteral psl])
    (hmem : (⟨src psl, true⟩ : bytecode.TextureDef) ∈ defs) :
    ∃ i, vec_position (fun d => d = (⟨src psl, true⟩ : bytecode.TextureDef)) defs = some i ∧
      bytecode.emit_uniform_texture src fc defs true = .ok (.UniformTexture (src u) i) := by
  obtain ⟨i, hi⟩ := vec_position_some_of_mem (⟨src psl, true⟩ : bytecode.TextureDef) defs hmem
  refine ⟨i, hi, ?_⟩
  simp only [bytecode.emit_uniform_texture, bytecode.expect_args_count, hargs,
    List.length_cons, List.length_nil, bytecode.arg_index, List.get?,
    bytecode.expect_ast_string, ast.ValueExpr.as_string, Except.mapError,
    Bind.bind, Except.bind, hi]
  simp

/-- Helper: the builtin-dispatch chain sends a statement whose call name
is `uniform_texture_srgb` to `emit_uniform_texture` with the srgb flag. -/
theorem stmt_from_ast_dispatch_texture_srgb (src : SourceSlice → String)
    (header : bytecode.ProgramHeader) (call : ast.FunctionCallExpr)
    (hname : src call.function = "uniform_texture_srgb") :
    bytecode.stmt_from_ast src header (.FunctionCall call)
      = bytecode.emit_uniform_texture src call header.texture_defs true := by
  show bytecode.compile_call_stmt src header call
    = bytecode.emit_uniform_texture src call header.texture_defs true
  rw [bytecode.compile_call_stmt, hname]
  simp only [String.reduceEq, reduceIte]

/-- C6 counterexample: `c6_prog` contains two textually distinct
`uniform_texture_srgb` call sites with the same path and flag (inside a
conditional branch), yet declaration collection yields *zero*
`TextureDef`s — not exactly one — and compilation panics instead of
producing two `UniformTexture` ops. -/
theorem C6_counterexample_nested_sites_not_collected :
    bytecode.collect_texture_defs c6_src c6_prog = .ok [] ∧
    bytecode.ProgramContainer.from_ast c6_src c6_prog = .error .panicUnwrap :=
  ⟨rfl, rfl⟩

/-- C6 (amended): for two textually distinct `uniform_texture_srgb` call
sites with the same texture path, appearing as *top-level* statements of
function bodies (where the declaration pass looks), a successful
collection records exactly one structurally equal `TextureDef`, and the
compiler turns both call sites into `UniformTexture` ops carrying the
same index — the def's first-seen position in the header. -/
theorem C6_texture_dedup_single_def_same_index
    (src : SourceSlice → String) (p : ast.Program) (defs : List bytecode.TextureDef)
    (fn1 fn2 : ast.Function) (call1 call2 : ast.FunctionCallExpr)
    (u1 u2 ps1 ps2 : SourceSlice) (header : bytecode.ProgramHeader)
    (hfn1 : fn1 ∈ p.functions) (hst1 : ast.Stmt.FunctionCall call1 ∈ fn1.block)
    (hfn2 : fn2 ∈ p.functions) (hst2 : ast.Stmt.FunctionCall call2 ∈ fn2.block)
    (hname1 : src call1.function = "uniform_texture_srgb")
    (hname2 : src call2.function = "uniform_texture_srgb")
    (hargs1 : call1.args = [.StringLiteral u1, .StringLiteral ps1])
    (hargs2 : call2.args = [.StringLiteral u2, .StringLiteral ps2])
    (hpath : src ps1 = src ps2)
    (hcollect : bytecode.collect_texture_defs src p = .ok defs)
    (hheader : header.texture_defs = defs) :
    defs.count ⟨src ps1, true⟩ = 1 ∧
    ∃ i, bytecode.stmt_from_ast src header (.FunctionCall call1)
           = .ok (.UniformTexture (src u1) i) ∧
         bytecode.stmt_from_ast src header (.FunctionCall call2)
           = .ok (.UniformTexture (src u2) i) := by
  simp only [bytecode.collect_texture_defs] at hcollect
  have hmem1 : (⟨src ps1, true⟩ : bytecode.TextureDef) ∈ defs :=
    walk_render_ops_establish p (bytecode.collect_texture_defs_step src)
      (fun s => (⟨src ps1, true⟩ : bytecode.TextureDef) ∈ s)
      (fun s x s' h hm => collect_texture_defs_step_mono src _ s x s' h hm)
      fn1 (.FunctionCall call1) hfn1 hst1
      (collect_texture_defs_step_establish src call1 u1 ps1 hname1 hargs1)
      [] defs hcollect
  have hnd : defs.Nodup :=
    walk_render_ops_invariant p (bytecode.collect_texture_defs_step src) List.Nodup
      (fun s x s' hn h => collect_texture_defs_step_nodup src s x s' h hn)
      [] defs List.nodup_nil hcollect
  refine ⟨List.count_eq_one_of_mem hnd hmem1, ?_⟩
  obtain ⟨i1, hpos1, hemit1⟩ :=
    emit_uniform_texture_index src call1 defs u1 ps1 hargs1 hmem1
  have hmem2 : (⟨src ps2, true⟩ : bytecode.TextureDef) ∈ defs := hpath ▸ hmem1
  obtain ⟨i2, hpos2, hemit2⟩ :=
    emit_uniform_texture_index src call2 defs u2 ps2 hargs2 hmem2
  have hsame : i1 = i2 := by
    have := hpos1
    rw [hpath] at this
    rw [this] at hpos2
    exact Option.some.inj hpos2
  refine ⟨i1, ?_, ?_⟩
  · rw [stmt_from_ast_dispatch_texture_srgb src header call1 hname1, hheader]
    exact hemit1
  · rw [stmt_from_ast_dispatch_texture_srgb src header call2 hname2, hheader, hsame]
    exact hemit2

/-- C6 witness: the amended theorem applied to `c6w_prog`
(`uniform_texture_srgb("t1", "a.png"); uniform_texture_srgb("t2",
"a.png");` at top level): collection yields exactly one `TextureDef`
`("a.png", srgb)` and both statements compile to `UniformTexture` ops
with index `0`. -/
theorem C6_texture_dedup_witness :
    (bytecode.collect_texture_defs c6w_src c6w_prog
      = .ok [⟨"a.png", true⟩]) ∧
    ([(⟨"a.png", true⟩ : bytecode.TextureDef)].count ⟨"a.png", true⟩ = 1 ∧
      ∃ i, bytecode.stmt_from_ast c6w_src c6w_header
             (.FunctionCall ⟨tok 1, tok 1, [.StringLiteral (tok 2), .StringLiteral (tok 3)]⟩)
             = .ok (.UniformTexture "t1" i) ∧
           bytecode.stmt_from_ast c6w_src c6w_header
             (.FunctionCall ⟨tok 1, tok 1, [.StringLiteral (tok 4), .StringLiteral (tok 3)]⟩)
             = .ok (.UniformTexture "t2" i)) := by
  constructor
  · rfl
  · exact C6_texture_dedup_single_def_same_index c6w_src c6w_prog [⟨"a.png", true⟩]
      (c6w_prog.functions.headD ⟨tok 0, [], [], none⟩)
      (c6w_prog.functions.headD ⟨tok 0, [], [], none⟩)
      ⟨tok 1, tok 1, [.StringLiteral (tok 2), .StringLiteral (tok 3)]⟩
      ⟨tok 1, tok 1, [.StringLiteral (tok 4), .StringLiteral (tok 3)]⟩
      (tok 2) (tok 4) (tok 3) (tok 3) c6w_header
      (by simp [c6w_prog]) (by simp [c6w_prog])
      (by simp [c6w_prog]) (by simp [c6w_prog])
      rfl rfl rfl rfl rfl rfl rfl

end Demo
